import Mathlib

set_option maxHeartbeats 1000000

namespace Workbench

/-! JSON values as produced by serde_json: objects are finite key/value
maps (modelled as association lists with unique keys in practice),
numbers restricted to integers since no claim involves floats. -/

inductive Json where
  | null
  | bool (b : Bool)
  | num (n : Int)
  | str (s : String)
  | arr (elems : List Json)
  | obj (fields : List (String × Json))
deriving Repr

namespace Json

/-- serde_json `Value::as_str`. -/
def asStr : Json → Option String
  | .str s => some s
  | _ => none

/-- serde_json `Value::as_bool`. -/
def asBool : Json → Option Bool
  | .bool b => some b
  | _ => none

/-- serde_json `Value::as_i64`. -/
def asI64 : Json → Option Int
  | .num n => some n
  | _ => none

/-- serde_json `Value::as_array`. -/
def asArr : Json → Option (List Json)
  | .arr xs => some xs
  | _ => none

/-- serde_json `Value::as_object`. -/
def asObj : Json → Option (List (String × Json))
  | .obj fs => some fs
  | _ => none

end Json

/-- Lookup in an association list (first match), as in a JSON object map. -/
def objLookup (fields : List (String × Json)) (k : String) : Option Json :=
  match fields with
  | [] => none
  | (k', v) :: rest => if k' = k then some v else objLookup rest k

/-- `Map::insert`: replace the value at the key if present, else append. -/
def objInsert (fields : List (String × Json)) (k : String) (v : Json) :
    List (String × Json) :=
  match fields with
  | [] => [(k, v)]
  | (k', v') :: rest =>
    if k' = k then (k, v) :: rest else (k', v') :: objInsert rest k v

/-- `Map::remove`: drop every entry at the key. -/
def objRemove (fields : List (String × Json)) (k : String) :
    List (String × Json) :=
  fields.filter (fun kv => kv.1 ≠ k)

/-! String-valued environment maps, modelling `HashMap<String, String>`.
A `HashMap` holds at most one entry per key; iteration order is
unspecified, so every property we state about these maps goes through
`envLookup`. -/

/-- `HashMap::get`. -/
def envLookup (env : List (String × String)) (k : String) : Option String :=
  match env with
  | [] => none
  | (k', v) :: rest => if k' = k then some v else envLookup rest k

/-- `HashMap::insert`: replace the entry at the key if present, else add. -/
def envInsert (env : List (String × String)) (k v : String) :
    List (String × String) :=
  match env with
  | [] => [(k, v)]
  | (k', v') :: rest =>
    if k' = k then (k, v) :: rest else (k', v') :: envInsert rest k v

/-- `HashMap::remove`. -/
def envRemove (env : List (String × String)) (k : String) :
    List (String × String) :=
  env.filter (fun kv => kv.1 ≠ k)

/-! ## provider.rs: data model

`ProviderConfig`, `CurrentConfig`, `ClaudeSettings` and
`PermissionsConfig` from `src-tauri/src/commands/provider.rs`. -/

/-- `deserialize_optional_string` (provider.rs:26): empty or
whitespace-only strings become `None`. -/
def deserialize_optional_string (value : Option String) : Option String :=
  value.bind (fun s => if s.trim.isEmpty then none else some s)

/-- `ProviderConfig` (provider.rs:10). The four optional fields have
already passed through `deserialize_optional_string` when serde builds
the struct. -/
structure ProviderConfig where
  id : String
  name : String
  description : String
  base_url : String
  auth_token : Option String
  api_key : Option String
  model : Option String
  small_fast_model : Option String
deriving Repr, DecidableEq

/-- Build a `ProviderConfig` the way serde deserializes one: each
optional field goes through `deserialize_optional_string`. -/
def mkProviderConfig (id name description base_url : String)
    (auth_token api_key model small_fast_model : Option String) :
    ProviderConfig :=
  { id := id, name := name, description := description, base_url := base_url
    auth_token := deserialize_optional_string auth_token
    api_key := deserialize_optional_string api_key
    model := deserialize_optional_string model
    small_fast_model := deserialize_optional_string small_fast_model }

/-- `CurrentConfig` (provider.rs:34). -/
structure CurrentConfig where
  anthropic_base_url : Option String
  anthropic_auth_token : Option String
  anthropic_api_key : Option String
  anthropic_model : Option String
  anthropic_small_fast_model : Option String
deriving Repr, DecidableEq

/-- `PermissionsConfig` (provider.rs:52). -/
structure PermissionsConfig where
  allow : List String
  deny : List String
deriving Repr, DecidableEq

/-- `ClaudeSettings` (provider.rs:44). `env` models
`HashMap<String, String>` as an association list with unique keys. -/
structure ClaudeSettings where
  env : List (String × String)
  permissions : Option PermissionsConfig
deriving Repr, DecidableEq

/-! ## provider.rs: loading settings.json

serde's derived deserializer for `ClaudeSettings`, and the fallback
`parse_compatible_settings`. A document is `Option Json`: `none` stands
for a missing or empty settings file (both give default settings), and
`some v` for a file whose text parses to the JSON value `v`. -/

/-- serde parse of a JSON array's elements as `Vec<String>`. -/
def parseStrElems : List Json → Option (List String)
  | [] => some []
  | x :: xs =>
    match x.asStr with
    | some s => (parseStrElems xs).map (fun l => s :: l)
    | none => none

/-- serde parse of `Vec<String>`. -/
def parseStringList (v : Json) : Option (List String) :=
  v.asArr.bind parseStrElems

/-- serde parse of `PermissionsConfig`: an object; `allow`/`deny` are
string arrays defaulting to `[]` when absent; unknown fields ignored. -/
def parsePermissionsConfig (v : Json) : Option PermissionsConfig :=
  match v with
  | .obj fs =>
    let allowP : Option (List String) :=
      match objLookup fs "allow" with
      | none => some []
      | some a => parseStringList a
    let denyP : Option (List String) :=
      match objLookup fs "deny" with
      | none => some []
      | some d => parseStringList d
    match allowP, denyP with
    | some allow, some deny => some { allow := allow, deny := deny }
    | _, _ => none
  | _ => none

/-- serde parse of `Option<PermissionsConfig>`: `null` is `None`. -/
def parseOptPermissions (v : Json) : Option (Option PermissionsConfig) :=
  match v with
  | .null => some none
  | _ => (parsePermissionsConfig v).map some

/-- serde parse of `HashMap<String, String>` from an object's fields:
every value must be a string. -/
def parseEnvStrict : List (String × Json) → Option (List (String × String))
  | [] => some []
  | (k, v) :: rest =>
    match v.asStr with
    | some s => (parseEnvStrict rest).map (fun l => (k, s) :: l)
    | none => none

/-- serde's derived parse of `ClaudeSettings`: a JSON object whose
`env` (if present) is an all-string object and whose `permissions`
(if present) is `null` or a valid `PermissionsConfig`. -/
def parseClaudeSettings (v : Json) : Option ClaudeSettings :=
  match v with
  | .obj fs =>
    let envP : Option (List (String × String)) :=
      match objLookup fs "env" with
      | none => some []
      | some (.obj efs) => parseEnvStrict efs
      | some _ => none
    let permP : Option (Option PermissionsConfig) :=
      match objLookup fs "permissions" with
      | none => some none
      | some pv => parseOptPermissions pv
    match envP, permP with
    | some env, some permissions => some { env := env, permissions := permissions }
    | _, _ => none
  | _ => none

/-- The string-valued entries of an object, key order preserved. -/
def compatEnvEntries (efs : List (String × Json)) : List (String × String) :=
  efs.filterMap (fun kv => kv.2.asStr.map (fun s => (kv.1, s)))

/-- `parse_compatible_settings` (provider.rs:266): keep only the
string-valued entries of the `env` object, drop permissions. -/
def parse_compatible_settings (v : Json) : ClaudeSettings :=
  { env :=
      match v with
      | .obj fs =>
        match objLookup fs "env" with
        | some (.obj efs) => compatEnvEntries efs
        | _ => []
      | _ => []
    permissions := none }

/-- `load_claude_settings` (provider.rs:212): a missing or empty file
yields default settings (empty env, empty permissions); otherwise the
strict parse, falling back to `parse_compatible_settings`. -/
def load_claude_settings (doc : Option Json) : ClaudeSettings :=
  match doc with
  | none => { env := [], permissions := some { allow := [], deny := [] } }
  | some v => (parseClaudeSettings v).getD (parse_compatible_settings v)

/-! ## provider.rs: saving and switching -/

/-- Serialization of `PermissionsConfig` (both fields always written). -/
def permissionsToJson (p : PermissionsConfig) : Json :=
  .obj [("allow", .arr (p.allow.map Json.str)),
        ("deny", .arr (p.deny.map Json.str))]

/-- The five managed keys removed from the existing `env` object by
`save_claude_settings` (provider.rs:321-325), in source order. -/
def savedRemovedKeys : List String :=
  ["ANTHROPIC_BASE_URL", "ANTHROPIC_AUTH_TOKEN", "ANTHROPIC_MODEL",
   "ANTHROPIC_SMALL_FAST_MODEL", "ANTHROPIC_API_KEY"]

/-- `save_claude_settings` (provider.rs:293): re-read the document,
strip the managed keys from its `env` object, merge in the new env,
overwrite `permissions` when the settings carry one, and keep every
other top-level key. A non-object document is written back unchanged
(`as_object_mut` yields nothing). -/
def save_claude_settings (doc : Option Json) (settings : ClaudeSettings) :
    Json :=
  let full : Json := match doc with
    | some v => v
    | none => .obj []
  match full with
  | .obj fs =>
    let existing_env : List (String × Json) :=
      match objLookup fs "env" with
      | some (.obj efs) => efs
      | _ => []
    let merged0 := savedRemovedKeys.foldl objRemove existing_env
    let merged := settings.env.foldl
      (fun m kv => objInsert m kv.1 (Json.str kv.2)) merged0
    let fs1 := objInsert fs "env" (.obj merged)
    let fs2 := match settings.permissions with
      | some p => objInsert fs1 "permissions" (permissionsToJson p)
      | none => fs1
    .obj fs2
  | other => other

/-- The env rewrite inside `switch_provider_config`
(provider.rs:357-378): drop the four managed keys, write base URL,
credential (API key wins over bearer token), and the two model keys
when present. -/
def switchEnv (env : List (String × String)) (config : ProviderConfig) :
    List (String × String) :=
  let e0 := envRemove (envRemove (envRemove (envRemove env
    "ANTHROPIC_MODEL") "ANTHROPIC_AUTH_TOKEN") "ANTHROPIC_API_KEY")
    "ANTHROPIC_SMALL_FAST_MODEL"
  let e1 := envInsert e0 "ANTHROPIC_BASE_URL" config.base_url
  let e2 := match config.api_key with
    | some api_key => envInsert e1 "ANTHROPIC_API_KEY" api_key
    | none => match config.auth_token with
      | some auth_token => envInsert e1 "ANTHROPIC_AUTH_TOKEN" auth_token
      | none => e1
  let e3 := match config.model with
    | some model => envInsert e2 "ANTHROPIC_MODEL" model
    | none => e2
  match config.small_fast_model with
  | some sfm => envInsert e3 "ANTHROPIC_SMALL_FAST_MODEL" sfm
  | none => e3

/-- `switch_provider_config` (provider.rs:352): load, rewrite the
managed env keys, save. The session-termination step is external and
not modelled. -/
def switch_provider_config (doc : Option Json) (config : ProviderConfig) :
    Json :=
  let settings := load_claude_settings doc
  save_claude_settings doc
    { settings with env := switchEnv settings.env config }

/-- `get_current_provider_config` (provider.rs:199). -/
def get_current_provider_config (doc : Option Json) : CurrentConfig :=
  let settings := load_claude_settings doc
  { anthropic_base_url := envLookup settings.env "ANTHROPIC_BASE_URL"
    anthropic_auth_token := envLookup settings.env "ANTHROPIC_AUTH_TOKEN"
    anthropic_api_key := envLookup settings.env "ANTHROPIC_API_KEY"
    anthropic_model := envLookup settings.env "ANTHROPIC_MODEL"
    anthropic_small_fast_model :=
      envLookup settings.env "ANTHROPIC_SMALL_FAST_MODEL" }

/-- The loop body of `detect_current_provider` (provider.rs:422-456):
the `matches` flag survives all four comparisons. -/
def configMatchesCurrent (cur : CurrentConfig) (pc : ProviderConfig) :
    Bool :=
  let baseOk := cur.anthropic_base_url = some pc.base_url
  let current_auth := cur.anthropic_auth_token.getD ""
  let current_api_key := cur.anthropic_api_key.getD ""
  let provider_auth := pc.auth_token.getD ""
  let provider_api_key := pc.api_key.getD ""
  let auth_matches :=
    (current_api_key = provider_api_key ∧ ¬ current_api_key.isEmpty) ∨
    (current_auth = provider_auth ∧ ¬ current_auth.isEmpty)
  let modelOk := cur.anthropic_model.getD "" = pc.model.getD ""
  let sfmOk :=
    cur.anthropic_small_fast_model.getD "" = pc.small_fast_model.getD ""
  decide (baseOk ∧ auth_matches ∧ modelOk ∧ sfmOk)

/-- `detect_current_provider` (provider.rs:411): first matching config
wins; otherwise "custom" when one of base-url/auth-token/api-key is
present; otherwise no active provider. -/
def detect_current_provider (configs : List ProviderConfig)
    (doc : Option Json) : Option String :=
  let cur := get_current_provider_config doc
  match configs.find? (configMatchesCurrent cur) with
  | some pc => some pc.id
  | none =>
    if cur.anthropic_base_url.isSome ∨ cur.anthropic_auth_token.isSome ∨
        cur.anthropic_api_key.isSome then
      some "custom"
    else
      none

/-- `get_current_provider_id` (provider.rs:474): the stored provider
list is a parameter here (the Rust code reads it from providers.json). -/
def get_current_provider_id (configs : List ProviderConfig)
    (doc : Option Json) : Option String :=
  detect_current_provider configs doc

/-- Top-level key access on a document. -/
def docTopLookup (d : Json) (k : String) : Option Json :=
  d.asObj.bind (fun fs => objLookup fs k)

/-- Access to a key of the `env` sub-object of a document. -/
def docEnvLookup (d : Json) (k : String) : Option Json :=
  (docTopLookup d "env").bind
    (fun e => e.asObj.bind (fun efs => objLookup efs k))

/-- Well-formedness carried over from `serde_json`: a real
`Value::Object` holds each key at most once, so the env object of a
document read from disk has pairwise-distinct keys. -/
def EnvKeysNodup (doc : Option Json) : Prop :=
  ∀ fs efs, doc = some (Json.obj fs) →
    objLookup fs "env" = some (Json.obj efs) →
    (efs.map Prod.fst).Nodup

/-! ## Association-list lemmas -/

theorem objLookup_objInsert_self (fs : List (String × Json)) (k : String)
    (v : Json) : objLookup (objInsert fs k v) k = some v := by
  induction fs with
  | nil => simp [objInsert, objLookup]
  | cons hd tl ih =>
    obtain ⟨k', v'⟩ := hd
    by_cases h : k' = k <;> simp [objInsert, objLookup, h, ih]

theorem objLookup_objInsert_ne (fs : List (String × Json)) (k k' : String)
    (v : Json) (h : k ≠ k') :
    objLookup (objInsert fs k v) k' = objLookup fs k' := by
  induction fs with
  | nil => simp [objInsert, objLookup, h]
  | cons hd tl ih =>
    obtain ⟨k0, v0⟩ := hd
    by_cases h0 : k0 = k
    · subst h0
      simp [objInsert, objLookup, h]
    · simp [objInsert, objLookup, h0, ih]

theorem objLookup_objRemove_self (fs : List (String × Json)) (k : String) :
    objLookup (objRemove fs k) k = none := by
  induction fs with
  | nil => simp [objRemove, objLookup]
  | cons hd tl ih =>
    obtain ⟨k0, v0⟩ := hd
    by_cases h0 : k0 = k
    · subst h0
      simpa [objRemove, objLookup] using ih
    · simpa [objRemove, objLookup, h0] using ih

theorem objLookup_objRemove_ne (fs : List (String × Json)) (k k' : String)
    (h : k ≠ k') : objLookup (objRemove fs k) k' = objLookup fs k' := by
  induction fs with
  | nil => simp [objRemove, objLookup]
  | cons hd tl ih =>
    obtain ⟨k0, v0⟩ := hd
    by_cases h0 : k0 = k
    · subst h0
      simpa [objRemove, objLookup, h, Ne.symm h] using ih
    · by_cases h1 : k0 = k'
      · subst h1
        simp [objRemove, objLookup, h0]
      · simpa [objRemove, objLookup, h0, h1] using ih

theorem envLookup_envInsert_self (env : List (String × String))
    (k v : String) : envLookup (envInsert env k v) k = some v := by
  induction env with
  | nil => simp [envInsert, envLookup]
  | cons hd tl ih =>
    obtain ⟨k', v'⟩ := hd
    by_cases h : k' = k <;> simp [envInsert, envLookup, h, ih]

theorem envLookup_envInsert_ne (env : List (String × String))
    (k k' v : String) (h : k ≠ k') :
    envLookup (envInsert env k v) k' = envLookup env k' := by
  induction env with
  | nil => simp [envInsert, envLookup, h]
  | cons hd tl ih =>
    obtain ⟨k0, v0⟩ := hd
    by_cases h0 : k0 = k
    · subst h0
      simp [envInsert, envLookup, h]
    · simp [envInsert, envLookup, h0, ih]

theorem envLookup_envRemove_self (env : List (String × String))
    (k : String) : envLookup (envRemove env k) k = none := by
  induction env with
  | nil => simp [envRemove, envLookup]
  | cons hd tl ih =>
    obtain ⟨k0, v0⟩ := hd
    by_cases h0 : k0 = k
    · subst h0
      simpa [envRemove, envLookup] using ih
    · simpa [envRemove, envLookup, h0] using ih

theorem envLookup_envRemove_ne (env : List (String × String))
    (k k' : String) (h : k ≠ k') :
    envLookup (envRemove env k) k' = envLookup env k' := by
  induction env with
  | nil => simp [envRemove, envLookup]
  | cons hd tl ih =>
    obtain ⟨k0, v0⟩ := hd
    by_cases h0 : k0 = k
    · subst h0
      simpa [envRemove, envLookup, h, Ne.symm h] using ih
    · by_cases h1 : k0 = k'
      · subst h1
        simp [envRemove, envLookup, h0]
      · simpa [envRemove, envLookup, h0, h1] using ih

theorem envLookup_eq_none_of_not_mem (env : List (String × String))
    (k : String) (h : k ∉ env.map Prod.fst) : envLookup env k = none := by
  induction env with
  | nil => rfl
  | cons hd tl ih =>
    obtain ⟨k0, v0⟩ := hd
    simp only [List.map_cons, List.mem_cons] at h
    push_neg at h
    have hne : k0 ≠ k := fun hc => h.1 hc.symm
    simp [envLookup, hne, ih h.2]

theorem mem_keys_envInsert (env : List (String × String)) (k v a : String)
    (h : a ∈ (envInsert env k v).map Prod.fst) :
    a = k ∨ a ∈ env.map Prod.fst := by
  induction env with
  | nil => simpa [envInsert] using h
  | cons hd tl ih =>
    obtain ⟨k0, v0⟩ := hd
    by_cases h0 : k0 = k
    · subst h0
      simpa [envInsert] using h
    · simp only [envInsert, if_neg h0, List.map_cons, List.mem_cons] at h
      rcases h with h | h
      · exact Or.inr (by simp [h])
      · rcases ih h with h' | h'
        · exact Or.inl h'
        · exact Or.inr (by simp [h'])

theorem nodup_keys_envInsert (env : List (String × String)) (k v : String)
    (hnd : (env.map Prod.fst).Nodup) :
    ((envInsert env k v).map Prod.fst).Nodup := by
  induction env with
  | nil => simp [envInsert]
  | cons hd tl ih =>
    obtain ⟨k0, v0⟩ := hd
    simp only [List.map_cons, List.nodup_cons] at hnd
    by_cases h0 : k0 = k
    · subst h0
      simpa [envInsert] using hnd
    · simp only [envInsert, if_neg h0, List.map_cons, List.nodup_cons]
      refine ⟨fun hc => ?_, ih hnd.2⟩
      rcases mem_keys_envInsert tl k v k0 hc with h' | h'
      · exact h0 h'
      · exact hnd.1 h'

theorem keys_envRemove_sublist (env : List (String × String)) (k : String) :
    ((envRemove env k).map Prod.fst).Sublist (env.map Prod.fst) :=
  ((env.filter_sublist).map Prod.fst)

theorem nodup_keys_envRemove (env : List (String × String)) (k : String)
    (hnd : (env.map Prod.fst).Nodup) :
    ((envRemove env k).map Prod.fst).Nodup :=
  hnd.sublist (keys_envRemove_sublist env k)

theorem mem_keys_objInsert (fs : List (String × Json)) (k : String)
    (v : Json) (a : String) (h : a ∈ (objInsert fs k v).map Prod.fst) :
    a = k ∨ a ∈ fs.map Prod.fst := by
  induction fs with
  | nil => simpa [objInsert] using h
  | cons hd tl ih =>
    obtain ⟨k0, v0⟩ := hd
    by_cases h0 : k0 = k
    · subst h0
      simpa [objInsert] using h
    · simp only [objInsert, if_neg h0, List.map_cons, List.mem_cons] at h
      rcases h with h | h
      · exact Or.inr (by simp [h])
      · rcases ih h with h' | h'
        · exact Or.inl h'
        · exact Or.inr (by simp [h'])

theorem nodup_keys_objInsert (fs : List (String × Json)) (k : String)
    (v : Json) (hnd : (fs.map Prod.fst).Nodup) :
    ((objInsert fs k v).map Prod.fst).Nodup := by
  induction fs with
  | nil => simp [objInsert]
  | cons hd tl ih =>
    obtain ⟨k0, v0⟩ := hd
    simp only [List.map_cons, List.nodup_cons] at hnd
    by_cases h0 : k0 = k
    · subst h0
      simpa [objInsert] using hnd
    · simp only [objInsert, if_neg h0, List.map_cons, List.nodup_cons]
      refine ⟨fun hc => ?_, ih hnd.2⟩
      rcases mem_keys_objInsert tl k v k0 hc with h' | h'
      · exact h0 h'
      · exact hnd.1 h'

theorem keys_objRemove_sublist (fs : List (String × Json)) (k : String) :
    ((objRemove fs k).map Prod.fst).Sublist (fs.map Prod.fst) :=
  ((fs.filter_sublist).map Prod.fst)

theorem nodup_keys_objRemove (fs : List (String × Json)) (k : String)
    (hnd : (fs.map Prod.fst).Nodup) :
    ((objRemove fs k).map Prod.fst).Nodup :=
  hnd.sublist (keys_objRemove_sublist fs k)

theorem nodup_keys_foldl_objRemove (ks : List String)
    (fs : List (String × Json)) (hnd : (fs.map Prod.fst).Nodup) :
    (((ks.foldl objRemove fs).map Prod.fst)).Nodup := by
  induction ks generalizing fs with
  | nil => exact hnd
  | cons hd tl ih => exact ih _ (nodup_keys_objRemove fs hd hnd)

theorem objLookup_foldl_objRemove_not_mem (ks : List String)
    (fs : List (String × Json)) (k : String) (h : k ∉ ks) :
    objLookup (ks.foldl objRemove fs) k = objLookup fs k := by
  induction ks generalizing fs with
  | nil => rfl
  | cons hd tl ih =>
    simp only [List.mem_cons] at h
    push_neg at h
    rw [List.foldl_cons, ih _ h.2,
      objLookup_objRemove_ne fs hd k (fun hc => h.1 hc.symm)]

theorem objLookup_foldl_objRemove_mem (ks : List String)
    (fs : List (String × Json)) (k : String) (h : k ∈ ks) :
    objLookup (ks.foldl objRemove fs) k = none := by
  induction ks generalizing fs with
  | nil => cases h
  | cons hd tl ih =>
    rw [List.foldl_cons]
    rcases List.mem_cons.mp h with rfl | h'
    · by_cases htl : k ∈ tl
      · exact ih _ htl
      · rw [objLookup_foldl_objRemove_not_mem tl _ k htl]
        exact objLookup_objRemove_self fs k
    · exact ih _ h'

theorem objLookup_mergeFold (env : List (String × String))
    (base : List (String × Json)) (k : String)
    (hnd : (env.map Prod.fst).Nodup) :
    objLookup (env.foldl (fun m kv => objInsert m kv.1 (Json.str kv.2)) base) k =
      (match envLookup env k with
       | some v => some (Json.str v)
       | none => objLookup base k) := by
  induction env generalizing base with
  | nil => simp [envLookup]
  | cons hd tl ih =>
    obtain ⟨k0, v0⟩ := hd
    simp only [List.map_cons, List.nodup_cons] at hnd
    rw [List.foldl_cons, ih _ hnd.2]
    by_cases hk : k0 = k
    · subst hk
      rw [envLookup_eq_none_of_not_mem tl k0 hnd.1]
      simp [envLookup, objLookup_objInsert_self]
    · cases h : envLookup tl k <;>
        simp [envLookup, hk, h, objLookup_objInsert_ne _ _ _ _ hk]

theorem nodup_keys_mergeFold (env : List (String × String))
    (base : List (String × Json)) (hnd : (base.map Prod.fst).Nodup) :
    (((env.foldl (fun m kv => objInsert m kv.1 (Json.str kv.2)) base).map
      Prod.fst)).Nodup := by
  induction env generalizing base with
  | nil => exact hnd
  | cons hd tl ih =>
    exact ih _ (nodup_keys_objInsert base hd.1 (Json.str hd.2) hnd)

/-! ## Parsing lemmas -/

theorem parseEnvStrict_keys (efs : List (String × Json))
    (l : List (String × String)) (h : parseEnvStrict efs = some l) :
    l.map Prod.fst = efs.map Prod.fst := by
  induction efs generalizing l with
  | nil =>
    simp [parseEnvStrict] at h
    simp [← h]
  | cons hd tl ih =>
    obtain ⟨k0, v0⟩ := hd
    simp only [parseEnvStrict] at h
    cases hv : v0.asStr with
    | none => rw [hv] at h; cases h
    | some s0 =>
      rw [hv] at h
      cases hr : parseEnvStrict tl with
      | none => rw [hr] at h; cases h
      | some l' =>
        rw [hr] at h
        simp at h
        simp [← h, ih l' hr]

theorem envLookup_parseEnvStrict (efs : List (String × Json))
    (l : List (String × String)) (k s : String)
    (h : parseEnvStrict efs = some l)
    (hk : objLookup efs k = some (.str s)) : envLookup l k = some s := by
  induction efs generalizing l with
  | nil => cases hk
  | cons hd tl ih =>
    obtain ⟨k0, v0⟩ := hd
    simp only [parseEnvStrict] at h
    cases hv : v0.asStr with
    | none => rw [hv] at h; cases h
    | some s0 =>
      rw [hv] at h
      cases hr : parseEnvStrict tl with
      | none => rw [hr] at h; cases h
      | some l' =>
        rw [hr] at h
        simp at h
        by_cases hkk : k0 = k
        · subst hkk
          simp [objLookup] at hk
          rw [hk] at hv
          simp [Json.asStr] at hv
          simp [← h, envLookup, hv]
        · simp only [objLookup, if_neg hkk] at hk
          simp [← h, envLookup, hkk, ih l' hr hk]

theorem parseEnvStrict_lookup_isStr (efs : List (String × Json))
    (l : List (String × String)) (k : String) (w : Json)
    (h : parseEnvStrict efs = some l)
    (hk : objLookup efs k = some w) : ∃ s, w = Json.str s := by
  induction efs generalizing l with
  | nil => cases hk
  | cons hd tl ih =>
    obtain ⟨k0, v0⟩ := hd
    simp only [parseEnvStrict] at h
    cases hv : v0.asStr with
    | none => rw [hv] at h; cases h
    | some s0 =>
      rw [hv] at h
      cases hr : parseEnvStrict tl with
      | none => rw [hr] at h; cases h
      | some l' =>
        by_cases hkk : k0 = k
        · subst hkk
          simp [objLookup] at hk
          subst hk
          cases v0 <;> simp [Json.asStr] at hv
          exact ⟨s0, by simp [hv]⟩
        · simp only [objLookup, if_neg hkk] at hk
          exact ih l' hr hk

theorem envLookup_compatEnvEntries_str (efs : List (String × Json))
    (k s : String) (hk : objLookup efs k = some (.str s)) :
    envLookup (compatEnvEntries efs) k = some s := by
  induction efs with
  | nil => cases hk
  | cons hd tl ih =>
    obtain ⟨k0, v0⟩ := hd
    by_cases hkk : k0 = k
    · subst hkk
      simp [objLookup] at hk
      subst hk
      simp [compatEnvEntries, Json.asStr, envLookup]
    · simp only [objLookup, if_neg hkk] at hk
      cases hv : v0.asStr with
      | none => simpa [compatEnvEntries, hv] using ih hk
      | some s0 =>
        simp only [compatEnvEntries, List.filterMap_cons, hv, Option.map_some]
        simpa [envLookup, hkk, compatEnvEntries] using ih hk

theorem objLookup_eq_of_mem_nodup (fs : List (String × Json)) (k : String)
    (v : Json) (hnd : (fs.map Prod.fst).Nodup) (hm : (k, v) ∈ fs) :
    objLookup fs k = some v := by
  induction fs with
  | nil => cases hm
  | cons hd tl ih =>
    obtain ⟨k0, v0⟩ := hd
    simp only [List.map_cons, List.nodup_cons] at hnd
    rcases List.mem_cons.mp hm with h | h
    · injection h with h1 h2
      subst h1
      subst h2
      simp [objLookup]
    · have hne : k0 ≠ k := by
        rintro rfl
        exact hnd.1 (List.mem_map.mpr ⟨(k0, v), h, rfl⟩)
      simp [objLookup, hne, ih hnd.2 h]

theorem mem_keys_compatEnvEntries (efs : List (String × Json)) (a : String)
    (h : a ∈ (compatEnvEntries efs).map Prod.fst) :
    ∃ v s, (a, v) ∈ efs ∧ v.asStr = some s := by
  rcases List.mem_map.mp h with ⟨⟨k1, s1⟩, hmem, hfst⟩
  rcases List.mem_filterMap.mp hmem with ⟨⟨k2, v2⟩, hin, heq⟩
  cases hv : v2.asStr with
  | none => rw [hv] at heq; cases heq
  | some s2 =>
    rw [hv] at heq
    simp at heq
    refine ⟨v2, s2, ?_, hv⟩
    have : k2 = a := by
      rw [← hfst]
      simp [← heq.1]
    rwa [this] at hin

theorem envLookup_compatEnvEntries_none (efs : List (String × Json))
    (k : String) (w : Json) (hnd : (efs.map Prod.fst).Nodup)
    (hk : objLookup efs k = some w) (hw : w.asStr = none) :
    envLookup (compatEnvEntries efs) k = none := by
  apply envLookup_eq_none_of_not_mem
  intro hc
  rcases mem_keys_compatEnvEntries efs k hc with ⟨v, s, hmem, hvs⟩
  have := objLookup_eq_of_mem_nodup efs k v hnd hmem
  rw [hk] at this
  cases this
  rw [hvs] at hw
  cases hw

theorem keys_compatEnvEntries_sublist (efs : List (String × Json)) :
    ((compatEnvEntries efs).map Prod.fst).Sublist (efs.map Prod.fst) := by
  induction efs with
  | nil => simp [compatEnvEntries]
  | cons hd tl ih =>
    obtain ⟨k0, v0⟩ := hd
    cases hv : v0.asStr with
    | none =>
      simp only [compatEnvEntries, List.filterMap_cons, hv] at ih ⊢
      exact (ih).cons _
    | some s0 =>
      simp only [compatEnvEntries, List.filterMap_cons, hv,
        Option.map_some, List.map_cons] at ih ⊢
      exact (ih).cons₂ _

/-! ## Loading lemmas -/

theorem load_env_cases (fs efs : List (String × Json))
    (henv : objLookup fs "env" = some (.obj efs)) :
    (∃ l, parseEnvStrict efs = some l ∧
      (load_claude_settings (some (.obj fs))).env = l) ∨
    (load_claude_settings (some (.obj fs))).env = compatEnvEntries efs := by
  simp only [load_claude_settings, parseClaudeSettings, henv]
  cases hes : parseEnvStrict efs with
  | none =>
    right
    simp [parse_compatible_settings, henv]
  | some l =>
    cases hp : objLookup fs "permissions" with
    | none =>
      left
      exact ⟨l, rfl, rfl⟩
    | some pv =>
      cases hpp : parseOptPermissions pv with
      | none =>
        right
        simp [hpp, parse_compatible_settings, henv]
      | some p =>
        left
        exact ⟨l, rfl, by simp [hpp]⟩

theorem load_env_lookup_str (fs efs : List (String × Json)) (k s : String)
    (henv : objLookup fs "env" = some (.obj efs))
    (hk : objLookup efs k = some (.str s)) :
    envLookup (load_claude_settings (some (.obj fs))).env k = some s := by
  rcases load_env_cases fs efs henv with ⟨l, hes, hl⟩ | hl
  · rw [hl]
    exact envLookup_parseEnvStrict efs l k s hes hk
  · rw [hl]
    exact envLookup_compatEnvEntries_str efs k s hk

theorem load_env_keys_nodup (doc : Option Json) (hwf : EnvKeysNodup doc) :
    (((load_claude_settings doc).env.map Prod.fst)).Nodup := by
  cases doc with
  | none => simp [load_claude_settings]
  | some v =>
    cases v with
    | obj fs =>
      cases he : objLookup fs "env" with
      | none =>
        simp only [load_claude_settings, parseClaudeSettings, he]
        cases hp : objLookup fs "permissions" with
        | none => simp
        | some pv =>
          cases hpp : parseOptPermissions pv with
          | none => simp [hpp, parse_compatible_settings, he]
          | some p => simp [hpp]
      | some ev =>
        cases ev with
        | obj efs =>
          have hnd := hwf fs efs rfl he
          rcases load_env_cases fs efs he with ⟨l, hes, hl⟩ | hl
          · rw [hl, parseEnvStrict_keys efs l hes]
            exact hnd
          · rw [hl]
            exact hnd.sublist (keys_compatEnvEntries_sublist efs)
        | null => simp [load_claude_settings, parseClaudeSettings, he,
            parse_compatible_settings]
        | bool b => simp [load_claude_settings, parseClaudeSettings, he,
            parse_compatible_settings]
        | num n => simp [load_claude_settings, parseClaudeSettings, he,
            parse_compatible_settings]
        | str s => simp [load_claude_settings, parseClaudeSettings, he,
            parse_compatible_settings]
        | arr xs => simp [load_claude_settings, parseClaudeSettings, he,
            parse_compatible_settings]
    | null => simp [load_claude_settings, parseClaudeSettings,
        parse_compatible_settings]
    | bool b => simp [load_claude_settings, parseClaudeSettings,
        parse_compatible_settings]
    | num n => simp [load_claude_settings, parseClaudeSettings,
        parse_compatible_settings]
    | str s => simp [load_claude_settings, parseClaudeSettings,
        parse_compatible_settings]
    | arr xs => simp [load_claude_settings, parseClaudeSettings,
        parse_compatible_settings]

/-! ## Saving lemmas -/

theorem docEnvLookup_save_core (fs : List (String × Json))
    (settings : ClaudeSettings) (k : String)
    (hnd : (settings.env.map Prod.fst).Nodup) :
    docEnvLookup (save_claude_settings (some (.obj fs)) settings) k =
      (match envLookup settings.env k with
       | some v => some (Json.str v)
       | none => objLookup (savedRemovedKeys.foldl objRemove
           (match objLookup fs "env" with
            | some (.obj efs) => efs
            | _ => [])) k) := by
  simp only [save_claude_settings]
  have henvfield : ∀ fs2 merged,
      objLookup fs2 "env" = some (.obj merged) →
      docEnvLookup (.obj fs2) k = objLookup merged k := by
    intro fs2 merged h
    simp [docEnvLookup, docTopLookup, Json.asObj, h]
  cases hperm : settings.permissions with
  | none =>
    rw [henvfield _ _ (objLookup_objInsert_self ..)]
    exact objLookup_mergeFold settings.env _ k hnd
  | some p =>
    rw [henvfield _ _ (by
      rw [objLookup_objInsert_ne _ _ _ _ (by decide)]
      exact objLookup_objInsert_self ..)]
    exact objLookup_mergeFold settings.env _ k hnd

theorem docEnvLookup_save_managed (doc : Option Json)
    (settings : ClaudeSettings) (k : String)
    (hdoc : doc = none ∨ ∃ fs, doc = some (Json.obj fs))
    (hnd : (settings.env.map Prod.fst).Nodup)
    (hk : k ∈ savedRemovedKeys) :
    docEnvLookup (save_claude_settings doc settings) k =
      (envLookup settings.env k).map Json.str := by
  have hnone : ∀ fs : List (String × Json),
      docEnvLookup (save_claude_settings (some (.obj fs)) settings) k =
        (envLookup settings.env k).map Json.str := by
    intro fs
    rw [docEnvLookup_save_core fs settings k hnd,
      objLookup_foldl_objRemove_mem _ _ _ hk]
    cases envLookup settings.env k <;> simp
  rcases hdoc with rfl | ⟨fs, rfl⟩
  · have : save_claude_settings none settings =
        save_claude_settings (some (.obj [])) settings := rfl
    rw [this]
    exact hnone []
  · exact hnone fs

theorem docEnvLookup_save_unmanaged (fs efs : List (String × Json))
    (settings : ClaudeSettings) (k : String)
    (henv : objLookup fs "env" = some (.obj efs))
    (hnd : (settings.env.map Prod.fst).Nodup)
    (hk : k ∉ savedRemovedKeys) :
    docEnvLookup (save_claude_settings (some (.obj fs)) settings) k =
      (match envLookup settings.env k with
       | some v => some (Json.str v)
       | none => objLookup efs k) := by
  rw [docEnvLookup_save_core fs settings k hnd, henv,
    objLookup_foldl_objRemove_not_mem _ _ _ hk]

theorem docTopLookup_save_frame (fs : List (String × Json))
    (settings : ClaudeSettings) (k : String)
    (h1 : k ≠ "env") (h2 : k ≠ "permissions") :
    docTopLookup (save_claude_settings (some (.obj fs)) settings) k =
      objLookup fs k := by
  simp only [save_claude_settings]
  cases hperm : settings.permissions with
  | none =>
    simp [docTopLookup, Json.asObj,
      objLookup_objInsert_ne _ _ _ _ (Ne.symm h1)]
  | some p =>
    simp [docTopLookup, Json.asObj,
      objLookup_objInsert_ne _ _ _ _ (Ne.symm h2),
      objLookup_objInsert_ne _ _ _ _ (Ne.symm h1)]

/-! ## switchEnv lemmas -/

theorem envLookup_switchEnv_base (env : List (String × String))
    (config : ProviderConfig) :
    envLookup (switchEnv env config) "ANTHROPIC_BASE_URL" =
      some config.base_url := by
  simp only [switchEnv]
  cases config.api_key <;> cases config.auth_token <;>
    cases config.model <;> cases config.small_fast_model <;>
    simp [envLookup_envInsert_self,
      envLookup_envInsert_ne _ _ _ _ (by decide :
        ("ANTHROPIC_API_KEY" : String) ≠ "ANTHROPIC_BASE_URL"),
      envLookup_envInsert_ne _ _ _ _ (by decide :
        ("ANTHROPIC_AUTH_TOKEN" : String) ≠ "ANTHROPIC_BASE_URL"),
      envLookup_envInsert_ne _ _ _ _ (by decide :
        ("ANTHROPIC_MODEL" : String) ≠ "ANTHROPIC_BASE_URL"),
      envLookup_envInsert_ne _ _ _ _ (by decide :
        ("ANTHROPIC_SMALL_FAST_MODEL" : String) ≠ "ANTHROPIC_BASE_URL")]

theorem envLookup_switchEnv_api (env : List (String × String))
    (config : ProviderConfig) :
    envLookup (switchEnv env config) "ANTHROPIC_API_KEY" =
      config.api_key := by
  simp only [switchEnv]
  cases config.api_key <;> cases config.auth_token <;>
    cases config.model <;> cases config.small_fast_model <;>
    simp [envLookup_envInsert_self, envLookup_envRemove_self,
      envLookup_envInsert_ne _ _ _ _ (by decide :
        ("ANTHROPIC_BASE_URL" : String) ≠ "ANTHROPIC_API_KEY"),
      envLookup_envInsert_ne _ _ _ _ (by decide :
        ("ANTHROPIC_AUTH_TOKEN" : String) ≠ "ANTHROPIC_API_KEY"),
      envLookup_envInsert_ne _ _ _ _ (by decide :
        ("ANTHROPIC_MODEL" : String) ≠ "ANTHROPIC_API_KEY"),
      envLookup_envInsert_ne _ _ _ _ (by decide :
        ("ANTHROPIC_SMALL_FAST_MODEL" : String) ≠ "ANTHROPIC_API_KEY"),
      envLookup_envRemove_ne _ _ _ (by decide :
        ("ANTHROPIC_SMALL_FAST_MODEL" : String) ≠ "ANTHROPIC_API_KEY")]

theorem envLookup_switchEnv_auth (env : List (String × String))
    (config : ProviderConfig) :
    envLookup (switchEnv env config) "ANTHROPIC_AUTH_TOKEN" =
      (match config.api_key with
       | some _ => none
       | none => config.auth_token) := by
  simp only [switchEnv]
  cases config.api_key <;> cases config.auth_token <;>
    cases config.model <;> cases config.small_fast_model <;>
    simp [envLookup_envInsert_self, envLookup_envRemove_self,
      envLookup_envInsert_ne _ _ _ _ (by decide :
        ("ANTHROPIC_BASE_URL" : String) ≠ "ANTHROPIC_AUTH_TOKEN"),
      envLookup_envInsert_ne _ _ _ _ (by decide :
        ("ANTHROPIC_API_KEY" : String) ≠ "ANTHROPIC_AUTH_TOKEN"),
      envLookup_envInsert_ne _ _ _ _ (by decide :
        ("ANTHROPIC_MODEL" : String) ≠ "ANTHROPIC_AUTH_TOKEN"),
      envLookup_envInsert_ne _ _ _ _ (by decide :
        ("ANTHROPIC_SMALL_FAST_MODEL" : String) ≠ "ANTHROPIC_AUTH_TOKEN"),
      envLookup_envRemove_ne _ _ _ (by decide :
        ("ANTHROPIC_SMALL_FAST_MODEL" : String) ≠ "ANTHROPIC_AUTH_TOKEN"),
      envLookup_envRemove_ne _ _ _ (by decide :
        ("ANTHROPIC_API_KEY" : String) ≠ "ANTHROPIC_AUTH_TOKEN")]

theorem envLookup_switchEnv_model (env : List (String × String))
    (config : ProviderConfig) :
    envLookup (switchEnv env config) "ANTHROPIC_MODEL" = config.model := by
  simp only [switchEnv]
  cases config.api_key <;> cases config.auth_token <;>
    cases config.model <;> cases config.small_fast_model <;>
    simp [envLookup_envInsert_self, envLookup_envRemove_self,
      envLookup_envInsert_ne _ _ _ _ (by decide :
        ("ANTHROPIC_BASE_URL" : String) ≠ "ANTHROPIC_MODEL"),
      envLookup_envInsert_ne _ _ _ _ (by decide :
        ("ANTHROPIC_API_KEY" : String) ≠ "ANTHROPIC_MODEL"),
      envLookup_envInsert_ne _ _ _ _ (by decide :
        ("ANTHROPIC_AUTH_TOKEN" : String) ≠ "ANTHROPIC_MODEL"),
      envLookup_envInsert_ne _ _ _ _ (by decide :
        ("ANTHROPIC_SMALL_FAST_MODEL" : String) ≠ "ANTHROPIC_MODEL"),
      envLookup_envRemove_ne _ _ _ (by decide :
        ("ANTHROPIC_SMALL_FAST_MODEL" : String) ≠ "ANTHROPIC_MODEL"),
      envLookup_envRemove_ne _ _ _ (by decide :
        ("ANTHROPIC_API_KEY" : String) ≠ "ANTHROPIC_MODEL"),
      envLookup_envRemove_ne _ _ _ (by decide :
        ("ANTHROPIC_AUTH_TOKEN" : String) ≠ "ANTHROPIC_MODEL")]

theorem envLookup_switchEnv_sfm (env : List (String × String))
    (config : ProviderConfig) :
    envLookup (switchEnv env config) "ANTHROPIC_SMALL_FAST_MODEL" =
      config.small_fast_model := by
  simp only [switchEnv]
  cases config.api_key <;> cases config.auth_token <;>
    cases config.model <;> cases config.small_fast_model <;>
    simp [envLookup_envInsert_self, envLookup_envRemove_self,
      envLookup_envInsert_ne _ _ _ _ (by decide :
        ("ANTHROPIC_BASE_URL" : String) ≠ "ANTHROPIC_SMALL_FAST_MODEL"),
      envLookup_envInsert_ne _ _ _ _ (by decide :
        ("ANTHROPIC_API_KEY" : String) ≠ "ANTHROPIC_SMALL_FAST_MODEL"),
      envLookup_envInsert_ne _ _ _ _ (by decide :
        ("ANTHROPIC_AUTH_TOKEN" : String) ≠ "ANTHROPIC_SMALL_FAST_MODEL"),
      envLookup_envInsert_ne _ _ _ _ (by decide :
        ("ANTHROPIC_MODEL" : String) ≠ "ANTHROPIC_SMALL_FAST_MODEL")]

theorem envLookup_switchEnv_unmanaged (env : List (String × String))
    (config : ProviderConfig) (k : String) (hk : k ∉ savedRemovedKeys) :
    envLookup (switchEnv env config) k = envLookup env k := by
  have hks : ¬(k = "ANTHROPIC_BASE_URL" ∨ k = "ANTHROPIC_AUTH_TOKEN" ∨
      k = "ANTHROPIC_MODEL" ∨ k = "ANTHROPIC_SMALL_FAST_MODEL" ∨
      k = "ANTHROPIC_API_KEY") := by
    simpa [savedRemovedKeys] using hk
  push_neg at hks
  obtain ⟨hB, hT, hM, hS, hK⟩ := hks
  simp only [switchEnv]
  cases config.api_key <;> cases config.auth_token <;>
    cases config.model <;> cases config.small_fast_model <;>
    simp [envLookup_envInsert_ne _ _ _ _ (Ne.symm hB),
      envLookup_envInsert_ne _ _ _ _ (Ne.symm hT),
      envLookup_envInsert_ne _ _ _ _ (Ne.symm hM),
      envLookup_envInsert_ne _ _ _ _ (Ne.symm hS),
      envLookup_envInsert_ne _ _ _ _ (Ne.symm hK),
      envLookup_envRemove_ne _ _ _ (Ne.symm hT),
      envLookup_envRemove_ne _ _ _ (Ne.symm hM),
      envLookup_envRemove_ne _ _ _ (Ne.symm hS),
      envLookup_envRemove_ne _ _ _ (Ne.symm hK)]

theorem nodup_keys_switchEnv (env : List (String × String))
    (config : ProviderConfig) (hnd : (env.map Prod.fst).Nodup) :
    ((switchEnv env config).map Prod.fst).Nodup := by
  simp only [switchEnv]
  have h0 := nodup_keys_envRemove _ "ANTHROPIC_SMALL_FAST_MODEL"
    (nodup_keys_envRemove _ "ANTHROPIC_API_KEY"
      (nodup_keys_envRemove _ "ANTHROPIC_AUTH_TOKEN"
        (nodup_keys_envRemove _ "ANTHROPIC_MODEL" hnd)))
  have h1 := nodup_keys_envInsert _ "ANTHROPIC_BASE_URL" config.base_url h0
  cases config.api_key <;> cases config.auth_token <;>
    cases config.model <;> cases config.small_fast_model <;>
    simp only [] <;>
    first
      | exact h1
      | exact nodup_keys_envInsert _ _ _ h1
      | exact nodup_keys_envInsert _ _ _ (nodup_keys_envInsert _ _ _ h1)
      | exact nodup_keys_envInsert _ _ _
          (nodup_keys_envInsert _ _ _ (nodup_keys_envInsert _ _ _ h1))

theorem docTopLookup_save_env (fs : List (String × Json))
    (settings : ClaudeSettings) :
    docTopLookup (save_claude_settings (some (.obj fs)) settings) "env" =
      some (.obj (settings.env.foldl
        (fun m kv => objInsert m kv.1 (Json.str kv.2))
        (savedRemovedKeys.foldl objRemove
          (match objLookup fs "env" with
           | some (.obj efs) => efs
           | _ => [])))) := by
  simp only [save_claude_settings]
  cases hperm : settings.permissions with
  | none =>
    simp [docTopLookup, Json.asObj, objLookup_objInsert_self]
  | some p =>
    simp [docTopLookup, Json.asObj,
      objLookup_objInsert_ne _ _ _ _ (by decide : ("permissions" : String) ≠ "env"),
      objLookup_objInsert_self]

theorem switch_as_save (doc : Option Json) (c : ProviderConfig) :
    switch_provider_config doc c =
      save_claude_settings doc
        { load_claude_settings doc with
          env := switchEnv (load_claude_settings doc).env c } := rfl

theorem docTopLookup_save_permissions (fs : List (String × Json))
    (settings : ClaudeSettings) (p : PermissionsConfig)
    (hp : settings.permissions = some p) :
    docTopLookup (save_claude_settings (some (.obj fs)) settings)
      "permissions" = some (permissionsToJson p) := by
  simp only [save_claude_settings, hp]
  simp [docTopLookup, Json.asObj, objLookup_objInsert_self]

theorem save_obj_shape (fs : List (String × Json))
    (settings : ClaudeSettings) :
    ∃ fs', save_claude_settings (some (.obj fs)) settings = .obj fs' := by
  simp only [save_claude_settings]
  cases settings.permissions <;> exact ⟨_, rfl⟩

theorem switch_obj_shape (fs : List (String × Json)) (c : ProviderConfig) :
    ∃ fs', switch_provider_config (some (.obj fs)) c = .obj fs' := by
  rw [switch_as_save]
  exact save_obj_shape fs _

theorem docTopLookup_switch_frame (fs : List (String × Json))
    (c : ProviderConfig) (k : String)
    (h1 : k ≠ "env") (h2 : k ≠ "permissions") :
    docTopLookup (switch_provider_config (some (.obj fs)) c) k =
      objLookup fs k := by
  rw [switch_as_save]
  exact docTopLookup_save_frame fs _ k h1 h2

theorem envKeysNodup_of_obj (fs efs : List (String × Json))
    (henv : objLookup fs "env" = some (.obj efs))
    (hnd : (efs.map Prod.fst).Nodup) :
    EnvKeysNodup (some (.obj fs)) := by
  intro fs' efs' h1 h2
  injection h1 with h1
  injection h1 with h1
  subst h1
  rw [henv] at h2
  injection h2 with h2
  injection h2 with h2
  subst h2
  exact hnd

theorem switch_preserves_env_entry (fs efs : List (String × Json))
    (c : ProviderConfig) (k : String) (w : Json)
    (henv : objLookup fs "env" = some (.obj efs))
    (hnd : (efs.map Prod.fst).Nodup)
    (hk : k ∉ savedRemovedKeys)
    (hv : objLookup efs k = some w) :
    docEnvLookup (switch_provider_config (some (.obj fs)) c) k = some w := by
  have hwf := envKeysNodup_of_obj fs efs henv hnd
  have hnd0 := load_env_keys_nodup (some (.obj fs)) hwf
  have hnd4 := nodup_keys_switchEnv (load_claude_settings (some (.obj fs))).env c hnd0
  rw [switch_as_save]
  rw [docEnvLookup_save_unmanaged fs efs _ k henv hnd4 hk]
  rw [show ({ load_claude_settings (some (.obj fs)) with
      env := switchEnv (load_claude_settings (some (.obj fs))).env c } :
      ClaudeSettings).env =
      switchEnv (load_claude_settings (some (.obj fs))).env c from rfl]
  rw [envLookup_switchEnv_unmanaged _ _ k hk]
  rcases load_env_cases fs efs henv with ⟨l, hes, hl⟩ | hl
  · rcases parseEnvStrict_lookup_isStr efs l k w hes hv with ⟨s, rfl⟩
    rw [hl, envLookup_parseEnvStrict efs l k s hes hv]
  · rw [hl]
    cases hw : w.asStr with
    | some s =>
      have hws : w = .str s := by
        cases w <;> simp [Json.asStr] at hw
        simp [hw]
      subst hws
      simp only [Json.asStr, Option.some.injEq] at hw
      rw [envLookup_compatEnvEntries_str efs k s hv]
    | none =>
      rw [envLookup_compatEnvEntries_none efs k w hnd hv hw]
      exact hv

theorem switch_env_obj (fs efs : List (String × Json)) (c : ProviderConfig)
    (henv : objLookup fs "env" = some (.obj efs))
    (hnd : (efs.map Prod.fst).Nodup) :
    ∃ mfs, docTopLookup (switch_provider_config (some (.obj fs)) c) "env" =
        some (.obj mfs) ∧ (mfs.map Prod.fst).Nodup := by
  rw [switch_as_save, docTopLookup_save_env, henv]
  refine ⟨_, rfl, ?_⟩
  exact nodup_keys_mergeFold _ _ (nodup_keys_foldl_objRemove _ _ hnd)

/-! ## Claim C1 -/

/-- C1: for every provider configuration applied by
`switch_provider_config` (over a settings document that is missing or a
JSON object with serde-unique env keys), the managed base-URL key is
written; a present API key is written and the auth-token key is absent
even when a bearer token is also present; with no API key a present
bearer token is written; every absent optional managed field leaves its
key absent rather than written as an empty string; and serde's
`deserialize_optional_string` turns an empty field into an absent one,
so "empty" and "absent" coincide on a `ProviderConfig`. -/
theorem C1_switch_provider_config_managed_keys (doc : Option Json)
    (config : ProviderConfig)
    (hdoc : doc = none ∨ ∃ fs, doc = some (Json.obj fs))
    (hwf : EnvKeysNodup doc) :
    (docEnvLookup (switch_provider_config doc config)
      "ANTHROPIC_BASE_URL" = some (Json.str config.base_url)) ∧
    (∀ k, config.api_key = some k →
      docEnvLookup (switch_provider_config doc config)
        "ANTHROPIC_API_KEY" = some (Json.str k) ∧
      docEnvLookup (switch_provider_config doc config)
        "ANTHROPIC_AUTH_TOKEN" = none) ∧
    (config.api_key = none → ∀ t, config.auth_token = some t →
      docEnvLookup (switch_provider_config doc config)
        "ANTHROPIC_AUTH_TOKEN" = some (Json.str t)) ∧
    (config.model = none →
      docEnvLookup (switch_provider_config doc config)
        "ANTHROPIC_MODEL" = none) ∧
    (config.small_fast_model = none →
      docEnvLookup (switch_provider_config doc config)
        "ANTHROPIC_SMALL_FAST_MODEL" = none) ∧
    (config.api_key = none → config.auth_token = none →
      docEnvLookup (switch_provider_config doc config)
        "ANTHROPIC_API_KEY" = none ∧
      docEnvLookup (switch_provider_config doc config)
        "ANTHROPIC_AUTH_TOKEN" = none) ∧
    (∀ s : String, s.trim.isEmpty →
      deserialize_optional_string (some s) = none) := by
  have hnd := load_env_keys_nodup doc hwf
  have hnd4 := nodup_keys_switchEnv (load_claude_settings doc).env config hnd
  have hsw : switch_provider_config doc config =
      save_claude_settings doc
        { load_claude_settings doc with
          env := switchEnv (load_claude_settings doc).env config } := rfl
  have hman : ∀ key, key ∈ savedRemovedKeys →
      docEnvLookup (switch_provider_config doc config) key =
        (envLookup (switchEnv (load_claude_settings doc).env config)
          key).map Json.str := by
    intro key hkey
    rw [hsw]
    exact docEnvLookup_save_managed doc _ key hdoc hnd4 hkey
  refine ⟨?_, ?_, ?_, ?_, ?_, ?_, ?_⟩
  · rw [hman _ (by decide), envLookup_switchEnv_base]
    rfl
  · intro k hk
    constructor
    · rw [hman _ (by decide), envLookup_switchEnv_api, hk]
      rfl
    · rw [hman _ (by decide), envLookup_switchEnv_auth, hk]
      rfl
  · intro hk t ht
    rw [hman _ (by decide), envLookup_switchEnv_auth, hk, ht]
    rfl
  · intro hm
    rw [hman _ (by decide), envLookup_switchEnv_model, hm]
    rfl
  · intro hs
    rw [hman _ (by decide), envLookup_switchEnv_sfm, hs]
    rfl
  · intro hk ht
    constructor
    · rw [hman _ (by decide), envLookup_switchEnv_api, hk]
      rfl
    · rw [hman _ (by decide), envLookup_switchEnv_auth, hk, ht]
      rfl
  · intro s hs
    simp [deserialize_optional_string, hs]

/-- A sample configuration carrying both credentials, as serde would
deliver it. -/
def sampleBothCreds : ProviderConfig :=
  { id := "id1", name := "prov", description := "desc"
    base_url := "https://x.example"
    auth_token := some "TOK", api_key := some "KEY"
    model := none, small_fast_model := none }

/-- Witness for C1 at a concrete input: switching from a missing
document to a configuration holding both credentials writes the API key
and leaves the auth-token key absent. -/
theorem C1_switch_provider_config_managed_keys_witness :
    docEnvLookup (switch_provider_config none sampleBothCreds)
      "ANTHROPIC_API_KEY" = some (Json.str "KEY") ∧
    docEnvLookup (switch_provider_config none sampleBothCreds)
      "ANTHROPIC_AUTH_TOKEN" = none :=
  (C1_switch_provider_config_managed_keys none sampleBothCreds
    (Or.inl rfl) (by intro fs efs h; cases h)).2.1 "KEY" rfl

/-! ## Claim C4 definitions

`SpecStationMatch` is written from the spec's words (not from the
code), to compare the code's matching loop against the spec's
description: base URL must match exactly; the credential matches when
either the API-key or the token field is non-empty and equal after
defaulting to the empty string; the model fields match after the same
defaulting. -/

def SpecStationMatch (cur : CurrentConfig) (pc : ProviderConfig) : Prop :=
  cur.anthropic_base_url = some pc.base_url ∧
  ((cur.anthropic_api_key.getD "" = pc.api_key.getD "" ∧
      cur.anthropic_api_key.getD "" ≠ "") ∨
   (cur.anthropic_auth_token.getD "" = pc.auth_token.getD "" ∧
      cur.anthropic_auth_token.getD "" ≠ "")) ∧
  cur.anthropic_model.getD "" = pc.model.getD "" ∧
  cur.anthropic_small_fast_model.getD "" = pc.small_fast_model.getD ""

instance (cur : CurrentConfig) (pc : ProviderConfig) :
    Decidable (SpecStationMatch cur pc) := by
  unfold SpecStationMatch
  infer_instance

theorem configMatchesCurrent_iff_spec (cur : CurrentConfig)
    (pc : ProviderConfig) :
    configMatchesCurrent cur pc = true ↔ SpecStationMatch cur pc := by
  simp only [configMatchesCurrent, SpecStationMatch, decide_eq_true_eq,
    String.isEmpty_iff]

/-! ## Claim C2 -/

/-- The document of the spec's round-trip example: a top-level
`permissions` key holding exactly `{"allow": ["x"]}`. -/
def permDocSample : Json :=
  .obj [("permissions", .obj [("allow", .arr [.str "x"])])]

/-- First provider of the round-trip example. -/
def cfgSampleA : ProviderConfig :=
  { id := "a", name := "A", description := "da"
    base_url := "https://a.example"
    auth_token := none, api_key := some "KA"
    model := none, small_fast_model := none }

/-- Second provider of the round-trip example. -/
def cfgSampleB : ProviderConfig :=
  { id := "b", name := "B", description := "db"
    base_url := "https://b.example"
    auth_token := some "TB", api_key := none
    model := none, small_fast_model := none }

/-- Counterexample to C2 as stated: after switching providers twice,
the document's `permissions` value is no longer character-for-character
`{"allow": ["x"]}` — saving rewrites it through `PermissionsConfig`,
which always serializes a `deny` list as well. -/
theorem C2_counterexample :
    docTopLookup (switch_provider_config
      (some (switch_provider_config (some permDocSample) cfgSampleA))
      cfgSampleB) "permissions" ≠
      some (.obj [("allow", .arr [.str "x"])]) := by
  intro h
  have heq : docTopLookup (switch_provider_config
      (some (switch_provider_config (some permDocSample) cfgSampleA))
      cfgSampleB) "permissions" =
      some (.obj [("allow", .arr [.str "x"]), ("deny", .arr [])]) := rfl
  rw [heq] at h
  simp at h

/-- C2 (amended): through two configuration switches, every top-level
key other than `env` and `permissions` round-trips character-for-
character, and every non-ANTHROPIC entry of the `env` sub-object keeps
its exact value; the `permissions` value however is re-serialized, so
the spec's example `{"allow": ["x"]}` comes back as
`{"allow": ["x"], "deny": []}` after the first switch and is stable
from then on. -/
theorem C2_unmanaged_roundtrip_amended :
    (∀ (fs : List (String × Json)) (c1 c2 : ProviderConfig) (k : String),
      k ≠ "env" → k ≠ "permissions" →
      docTopLookup (switch_provider_config
        (some (switch_provider_config (some (.obj fs)) c1)) c2) k =
        objLookup fs k) ∧
    (∀ (fs efs : List (String × Json)) (c1 c2 : ProviderConfig)
      (k : String) (w : Json),
      objLookup fs "env" = some (.obj efs) →
      (efs.map Prod.fst).Nodup →
      k ∉ savedRemovedKeys →
      objLookup efs k = some w →
      docEnvLookup (switch_provider_config
        (some (switch_provider_config (some (.obj fs)) c1)) c2) k =
        some w) ∧
    (docTopLookup (switch_provider_config
        (some (switch_provider_config (some permDocSample) cfgSampleA))
        cfgSampleB) "permissions" =
      some (.obj [("allow", .arr [.str "x"]), ("deny", .arr [])]) ∧
     docTopLookup (switch_provider_config (some permDocSample) cfgSampleA)
        "permissions" =
      some (.obj [("allow", .arr [.str "x"]), ("deny", .arr [])])) := by
  refine ⟨?_, ?_, rfl, rfl⟩
  · intro fs c1 c2 k hk1 hk2
    obtain ⟨fs1, h1⟩ := switch_obj_shape fs c1
    have hfr1 := docTopLookup_switch_frame fs c1 k hk1 hk2
    rw [h1] at hfr1
    have hfr1' : objLookup fs1 k = objLookup fs k := by
      simpa [docTopLookup, Json.asObj] using hfr1
    rw [h1, docTopLookup_switch_frame fs1 c2 k hk1 hk2, hfr1']
  · intro fs efs c1 c2 k w henv hnd hk hv
    have hstep1 := switch_preserves_env_entry fs efs c1 k w henv hnd hk hv
    obtain ⟨mfs, hm, hmnd⟩ := switch_env_obj fs efs c1 henv hnd
    obtain ⟨fs1, h1⟩ := switch_obj_shape fs c1
    rw [h1] at hstep1 hm
    have hm' : objLookup fs1 "env" = some (.obj mfs) := by
      simpa [docTopLookup, Json.asObj] using hm
    have hv' : objLookup mfs k = some w := by
      have hde : docEnvLookup (.obj fs1) k = objLookup mfs k := by
        simp [docEnvLookup, docTopLookup, Json.asObj, hm']
      rw [hde] at hstep1
      exact hstep1
    rw [h1]
    exact switch_preserves_env_entry fs1 mfs c2 k w hm' hmnd hk hv'

/-- Witness for the amended C2 at a concrete input: a non-ANTHROPIC env
entry and its exact value survive two switches. -/
theorem C2_unmanaged_roundtrip_amended_witness :
    docEnvLookup (switch_provider_config
      (some (switch_provider_config
        (some (.obj [("env", .obj [("KEEP", .str "v")]),
                     ("permissions", .obj [("allow", .arr [.str "x"])])]))
        cfgSampleA)) cfgSampleB) "KEEP" = some (.str "v") :=
  C2_unmanaged_roundtrip_amended.2.1
    [("env", .obj [("KEEP", .str "v")]),
     ("permissions", .obj [("allow", .arr [.str "x"])])]
    [("KEEP", .str "v")] cfgSampleA cfgSampleB "KEEP" (.str "v")
    rfl (by decide) (by decide) rfl

/-! ## Claim C4 -/

/-- A document whose only managed key is the primary-model key. -/
def modelOnlyDoc : Json :=
  .obj [("env", .obj [("ANTHROPIC_MODEL", .str "m")])]

/-- Counterexample to C4 as stated: with no known configurations and a
document holding the managed key `ANTHROPIC_MODEL`, the claim demands
the synthetic "custom" answer, but `detect_current_provider` only
consults the base-URL/auth-token/API-key presence and reports no active
station. -/
theorem C4_counterexample :
    docEnvLookup modelOnlyDoc "ANTHROPIC_MODEL" = some (.str "m") ∧
    detect_current_provider [] (some modelOnlyDoc) = none :=
  ⟨rfl, rfl⟩

/-- C4 (amended): the first configuration matching on base URL,
credential and both model fields (spec-level matching rule) wins; when
no configuration matches, the synthetic "custom" identifier is reported
exactly when one of the base-URL, auth-token or API-key managed keys is
present — presence of only the model keys reports no active station. -/
theorem C4_detect_current_provider_amended (configs : List ProviderConfig)
    (doc : Option Json) :
    (∀ pc : ProviderConfig,
      configs.find? (fun c =>
        decide (SpecStationMatch (get_current_provider_config doc) c)) =
        some pc →
      detect_current_provider configs doc = some pc.id) ∧
    ((∀ pc ∈ configs,
        ¬ SpecStationMatch (get_current_provider_config doc) pc) →
      detect_current_provider configs doc =
        if (get_current_provider_config doc).anthropic_base_url.isSome ∨
            (get_current_provider_config doc).anthropic_auth_token.isSome ∨
            (get_current_provider_config doc).anthropic_api_key.isSome
        then some "custom" else none) := by
  have hfun : (fun c =>
      decide (SpecStationMatch (get_current_provider_config doc) c)) =
      configMatchesCurrent (get_current_provider_config doc) := by
    funext c
    rw [Bool.eq_iff_iff, decide_eq_true_eq]
    exact (configMatchesCurrent_iff_spec _ c).symm
  constructor
  · intro pc hfind
    rw [hfun] at hfind
    simp only [detect_current_provider, hfind]
  · intro hno
    have hfind : configs.find?
        (configMatchesCurrent (get_current_provider_config doc)) = none := by
      rw [← hfun]
      exact List.find?_eq_none.mpr (fun pc hmem => by
        simp only [decide_eq_true_eq]
        exact hno pc hmem)
    simp only [detect_current_provider, hfind]

/-- A document matching `cfgSampleA` structurally. -/
def matchingDocA : Json :=
  .obj [("env", .obj [("ANTHROPIC_BASE_URL", .str "https://a.example"),
                      ("ANTHROPIC_API_KEY", .str "KA")])]

/-- Witness for the amended C4 at a concrete input: the document built
by switching to `cfgSampleA` is detected as `cfgSampleA`. -/
theorem C4_detect_current_provider_amended_witness :
    detect_current_provider [cfgSampleA] (some matchingDocA) = some "a" :=
  (C4_detect_current_provider_amended [cfgSampleA] (some matchingDocA)).1
    cfgSampleA (by decide)

/-! ## relay_stations.rs: data model -/

/-- `RelayStationAdapter` (relay_stations.rs:22). -/
inductive RelayStationAdapter where
  | newapi
  | oneapi
  | yourapi
  | custom
deriving Repr, DecidableEq

/-- `AuthMethod` (relay_stations.rs:32). -/
inductive AuthMethod where
  | bearer_token
  | api_key
  | custom
deriving Repr, DecidableEq

/-- The TEXT value stored for an adapter (relay_stations.rs:423-428). -/
def adapterToDb : RelayStationAdapter → String
  | .newapi => "newapi"
  | .oneapi => "oneapi"
  | .yourapi => "yourapi"
  | .custom => "custom"

/-- The TEXT value stored for an auth method
(relay_stations.rs:429-433). -/
def authMethodToDb : AuthMethod → String
  | .bearer_token => "bearer_token"
  | .api_key => "api_key"
  | .custom => "custom"

/-- A row of the `relay_stations` table at SQL level: TEXT columns are
`String` / `Option String`, the `enabled` INTEGER column is `Int`. The
`adapter_config` TEXT column stores serialized JSON and is modelled by
the parsed object value. -/
structure RelayStationRow where
  id : String
  name : String
  description : Option String
  api_url : String
  adapter : String
  auth_method : String
  system_token : String
  user_id : Option String
  adapter_config : Option (List (String × Json))
  enabled : Int
  created_at : Int
  updated_at : Int
deriving Repr

/-- The recognized update keys of `update_station`
(relay_stations.rs:497-506); every other key is silently skipped. -/
def recognizedUpdateKeys : List String :=
  ["name", "description", "api_url", "adapter", "auth_method",
   "system_token", "user_id", "enabled"]

/-- One SET assignment of `update_station` (relay_stations.rs:518-555):
the parameter bound for a recognized key, with `unwrap_or` supplying a
silent default when the JSON value has the wrong type. -/
def applyStationField (row : RelayStationRow) (kv : String × Json) :
    RelayStationRow :=
  match kv.1 with
  | "name" => { row with name := (kv.2.asStr).getD "" }
  | "description" => { row with description := kv.2.asStr }
  | "api_url" => { row with api_url := (kv.2.asStr).getD "" }
  | "adapter" => { row with adapter := (kv.2.asStr).getD "newapi" }
  | "auth_method" =>
    { row with auth_method := (kv.2.asStr).getD "bearer_token" }
  | "system_token" => { row with system_token := (kv.2.asStr).getD "" }
  | "user_id" => { row with user_id := kv.2.asStr }
  | "enabled" =>
    { row with enabled := if (kv.2.asBool).getD false then 1 else 0 }
  | _ => row

/-- `RelayStationManager::update_station` (relay_stations.rs:491) acting
on the addressed row: if no recognized key is present the UPDATE is not
executed at all; otherwise each recognized key's assignment is applied
and `updated_at` is set. The update map models
`HashMap<String, serde_json::Value>` (unique keys). The Rust function
returns `Ok(())` in every one of these cases — unrecognized keys are
never an error. -/
def update_station (row : RelayStationRow)
    (updates : List (String × Json)) (now : Int) : RelayStationRow :=
  if updates.any (fun kv => kv.1 ∈ recognizedUpdateKeys) then
    { updates.foldl applyStationField row with updated_at := now }
  else
    row

/-! ## update_station lemmas -/

theorem objLookup_eq_none_of_not_mem_keys (fs : List (String × Json))
    (k : String) (h : k ∉ fs.map Prod.fst) : objLookup fs k = none := by
  induction fs with
  | nil => rfl
  | cons hd tl ih =>
    obtain ⟨k0, v0⟩ := hd
    simp only [List.map_cons, List.mem_cons] at h
    push_neg at h
    have hne : k0 ≠ k := fun hc => h.1 hc.symm
    simp [objLookup, hne, ih h.2]

theorem not_mem_keys_of_objLookup_eq_none (fs : List (String × Json))
    (k : String) (h : objLookup fs k = none) : k ∉ fs.map Prod.fst := by
  induction fs with
  | nil => simp
  | cons hd tl ih =>
    obtain ⟨k0, v0⟩ := hd
    simp only [objLookup] at h
    by_cases hk : k0 = k
    · rw [if_pos hk] at h
      cases h
    · rw [if_neg hk] at h
      simp only [List.map_cons, List.mem_cons]
      push_neg
      exact ⟨fun hc => hk hc.symm, ih h⟩

theorem objLookup_mem (fs : List (String × Json)) (k : String) (v : Json)
    (h : objLookup fs k = some v) : (k, v) ∈ fs := by
  induction fs with
  | nil => cases h
  | cons hd tl ih =>
    obtain ⟨k0, v0⟩ := hd
    simp only [objLookup] at h
    by_cases hk : k0 = k
    · rw [if_pos hk] at h
      injection h with h
      subst hk
      subst h
      exact List.mem_cons_self ..
    · rw [if_neg hk] at h
      exact List.mem_cons_of_mem _ (ih h)

theorem fold_field_invariant {α : Type} (P : RelayStationRow → α)
    (hP : ∀ row kv, P (applyStationField row kv) = P row)
    (updates : List (String × Json)) (row : RelayStationRow) :
    P (updates.foldl applyStationField row) = P row := by
  induction updates generalizing row with
  | nil => rfl
  | cons hd tl ih => rw [List.foldl_cons, ih _, hP row hd]

theorem fold_field_frame {α : Type} (P : RelayStationRow → α)
    (key : String)
    (hP : ∀ row kv, kv.1 ≠ key → P (applyStationField row kv) = P row)
    (updates : List (String × Json)) (row : RelayStationRow)
    (h : key ∉ updates.map Prod.fst) :
    P (updates.foldl applyStationField row) = P row := by
  induction updates generalizing row with
  | nil => rfl
  | cons hd tl ih =>
    simp only [List.map_cons, List.mem_cons] at h
    push_neg at h
    rw [List.foldl_cons, ih _ h.2, hP row hd (fun hc => h.1 hc.symm)]

theorem fold_field_set {α : Type} (P : RelayStationRow → α)
    (key : String) (conv : Json → α)
    (hP : ∀ row kv, kv.1 ≠ key → P (applyStationField row kv) = P row)
    (hset : ∀ row v, P (applyStationField row (key, v)) = conv v)
    (updates : List (String × Json)) (row : RelayStationRow) (v : Json)
    (hnd : (updates.map Prod.fst).Nodup)
    (hl : objLookup updates key = some v) :
    P (updates.foldl applyStationField row) = conv v := by
  induction updates generalizing row with
  | nil => cases hl
  | cons hd tl ih =>
    obtain ⟨k0, v0⟩ := hd
    simp only [List.map_cons, List.nodup_cons] at hnd
    simp only [objLookup] at hl
    by_cases hk : k0 = key
    · subst hk
      rw [if_pos rfl] at hl
      injection hl with hl
      subst hl
      rw [List.foldl_cons, fold_field_frame P k0 hP tl _ hnd.1, hset]
    · rw [if_neg hk] at hl
      rw [List.foldl_cons]
      exact ih _ hnd.2 hl

theorem apply_id_invariant (row : RelayStationRow) (kv : String × Json) :
    (applyStationField row kv).id = row.id := by
  obtain ⟨k, v⟩ := kv
  simp only [applyStationField]
  split <;> rfl

theorem apply_created_invariant (row : RelayStationRow)
    (kv : String × Json) :
    (applyStationField row kv).created_at = row.created_at := by
  obtain ⟨k, v⟩ := kv
  simp only [applyStationField]
  split <;> rfl

theorem apply_updated_invariant (row : RelayStationRow)
    (kv : String × Json) :
    (applyStationField row kv).updated_at = row.updated_at := by
  obtain ⟨k, v⟩ := kv
  simp only [applyStationField]
  split <;> rfl

theorem apply_adapter_config_invariant (row : RelayStationRow)
    (kv : String × Json) :
    (applyStationField row kv).adapter_config = row.adapter_config := by
  obtain ⟨k, v⟩ := kv
  simp only [applyStationField]
  split <;> rfl

theorem apply_name_frame (row : RelayStationRow) (kv : String × Json)
    (h : kv.1 ≠ "name") : (applyStationField row kv).name = row.name := by
  obtain ⟨k, v⟩ := kv
  simp only [applyStationField]
  split <;> simp_all

theorem apply_description_frame (row : RelayStationRow)
    (kv : String × Json) (h : kv.1 ≠ "description") :
    (applyStationField row kv).description = row.description := by
  obtain ⟨k, v⟩ := kv
  simp only [applyStationField]
  split <;> simp_all

theorem apply_api_url_frame (row : RelayStationRow) (kv : String × Json)
    (h : kv.1 ≠ "api_url") :
    (applyStationField row kv).api_url = row.api_url := by
  obtain ⟨k, v⟩ := kv
  simp only [applyStationField]
  split <;> simp_all

theorem apply_adapter_frame (row : RelayStationRow) (kv : String × Json)
    (h : kv.1 ≠ "adapter") :
    (applyStationField row kv).adapter = row.adapter := by
  obtain ⟨k, v⟩ := kv
  simp only [applyStationField]
  split <;> simp_all

theorem apply_auth_method_frame (row : RelayStationRow)
    (kv : String × Json) (h : kv.1 ≠ "auth_method") :
    (applyStationField row kv).auth_method = row.auth_method := by
  obtain ⟨k, v⟩ := kv
  simp only [applyStationField]
  split <;> simp_all

theorem apply_system_token_frame (row : RelayStationRow)
    (kv : String × Json) (h : kv.1 ≠ "system_token") :
    (applyStationField row kv).system_token = row.system_token := by
  obtain ⟨k, v⟩ := kv
  simp only [applyStationField]
  split <;> simp_all

theorem apply_user_id_frame (row : RelayStationRow) (kv : String × Json)
    (h : kv.1 ≠ "user_id") :
    (applyStationField row kv).user_id = row.user_id := by
  obtain ⟨k, v⟩ := kv
  simp only [applyStationField]
  split <;> simp_all

theorem apply_enabled_frame (row : RelayStationRow) (kv : String × Json)
    (h : kv.1 ≠ "enabled") :
    (applyStationField row kv).enabled = row.enabled := by
  obtain ⟨k, v⟩ := kv
  simp only [applyStationField]
  split <;> simp_all

theorem update_station_eq_true (row : RelayStationRow)
    (updates : List (String × Json)) (now : Int)
    (h : updates.any (fun kv => kv.1 ∈ recognizedUpdateKeys) = true) :
    update_station row updates now =
      { updates.foldl applyStationField row with updated_at := now } := by
  simp [update_station, h]

theorem update_station_eq_false (row : RelayStationRow)
    (updates : List (String × Json)) (now : Int)
    (h : updates.any (fun kv => kv.1 ∈ recognizedUpdateKeys) = false) :
    update_station row updates now = row := by
  simp [update_station, h]

theorem any_recognized_of_lookup (updates : List (String × Json))
    (key : String) (v : Json) (hkey : key ∈ recognizedUpdateKeys)
    (hl : objLookup updates key = some v) :
    updates.any (fun kv => kv.1 ∈ recognizedUpdateKeys) = true := by
  refine List.any_eq_true.mpr ⟨(key, v), objLookup_mem _ _ _ hl, ?_⟩
  simpa using hkey

/-! ## Claim C3 -/

/-- C3: `update_station` rewrites exactly the recognized fields present
in the update map and leaves every other column byte-identical;
`updated_at` is refreshed exactly when a recognized key is present, so
an empty map or a map of only unrecognized keys changes nothing
(the Rust function returns `Ok(())` in all these cases — unrecognized
keys never error; the model is a total function). The Nodup hypothesis
models the `HashMap` update map holding each key once. -/
theorem C3_update_station_partial_update (row : RelayStationRow)
    (updates : List (String × Json)) (now : Int)
    (hnd : (updates.map Prod.fst).Nodup) :
    ((∀ kv ∈ updates, kv.1 ∉ recognizedUpdateKeys) →
      update_station row updates now = row) ∧
    ((∃ kv ∈ updates, kv.1 ∈ recognizedUpdateKeys) →
      (update_station row updates now).updated_at = now) ∧
    (update_station row updates now).id = row.id ∧
    (update_station row updates now).created_at = row.created_at ∧
    (update_station row updates now).adapter_config = row.adapter_config ∧
    (objLookup updates "name" = none →
      (update_station row updates now).name = row.name) ∧
    (objLookup updates "description" = none →
      (update_station row updates now).description = row.description) ∧
    (objLookup updates "api_url" = none →
      (update_station row updates now).api_url = row.api_url) ∧
    (objLookup updates "adapter" = none →
      (update_station row updates now).adapter = row.adapter) ∧
    (objLookup updates "auth_method" = none →
      (update_station row updates now).auth_method = row.auth_method) ∧
    (objLookup updates "system_token" = none →
      (update_station row updates now).system_token = row.system_token) ∧
    (objLookup updates "user_id" = none →
      (update_station row updates now).user_id = row.user_id) ∧
    (objLookup updates "enabled" = none →
      (update_station row updates now).enabled = row.enabled) ∧
    (∀ v, objLookup updates "name" = some v →
      (update_station row updates now).name = v.asStr.getD "") ∧
    (∀ v, objLookup updates "description" = some v →
      (update_station row updates now).description = v.asStr) ∧
    (∀ v, objLookup updates "api_url" = some v →
      (update_station row updates now).api_url = v.asStr.getD "") ∧
    (∀ v, objLookup updates "adapter" = some v →
      (update_station row updates now).adapter = v.asStr.getD "newapi") ∧
    (∀ v, objLookup updates "auth_method" = some v →
      (update_station row updates now).auth_method =
        v.asStr.getD "bearer_token") ∧
    (∀ v, objLookup updates "system_token" = some v →
      (update_station row updates now).system_token = v.asStr.getD "") ∧
    (∀ v, objLookup updates "user_id" = some v →
      (update_station row updates now).user_id = v.asStr) ∧
    (∀ v, objLookup updates "enabled" = some v →
      (update_station row updates now).enabled =
        if v.asBool.getD false then 1 else 0) := by
  have hInv : ∀ {α : Type} (P : RelayStationRow → α)
      (hP : ∀ r kv, P (applyStationField r kv) = P r)
      (hU : ∀ r : RelayStationRow, ∀ t : Int,
        P { r with updated_at := t } = P r),
      P (update_station row updates now) = P row := by
    intro α P hP hU
    cases hany : updates.any (fun kv => kv.1 ∈ recognizedUpdateKeys) with
    | false => rw [update_station_eq_false _ _ _ hany]
    | true =>
      rw [update_station_eq_true _ _ _ hany, hU]
      exact fold_field_invariant P hP updates row
  have hFrame : ∀ {α : Type} (P : RelayStationRow → α) (key : String)
      (hP : ∀ r kv, kv.1 ≠ key → P (applyStationField r kv) = P r)
      (hU : ∀ r : RelayStationRow, ∀ t : Int,
        P { r with updated_at := t } = P r),
      objLookup updates key = none →
      P (update_station row updates now) = P row := by
    intro α P key hP hU hl
    cases hany : updates.any (fun kv => kv.1 ∈ recognizedUpdateKeys) with
    | false => rw [update_station_eq_false _ _ _ hany]
    | true =>
      rw [update_station_eq_true _ _ _ hany, hU]
      exact fold_field_frame P key hP updates row
        (not_mem_keys_of_objLookup_eq_none _ _ hl)
  have hSet : ∀ {α : Type} (P : RelayStationRow → α) (key : String)
      (conv : Json → α)
      (hP : ∀ r kv, kv.1 ≠ key → P (applyStationField r kv) = P r)
      (hset : ∀ r v, P (applyStationField r (key, v)) = conv v)
      (hU : ∀ r : RelayStationRow, ∀ t : Int,
        P { r with updated_at := t } = P r)
      (hkey : key ∈ recognizedUpdateKeys),
      ∀ v, objLookup updates key = some v →
      P (update_station row updates now) = conv v := by
    intro α P key conv hP hset hU hkey v hl
    rw [update_station_eq_true _ _ _
      (any_recognized_of_lookup updates key v hkey hl), hU]
    exact fold_field_set P key conv hP hset updates row v hnd hl
  refine ⟨?_, ?_, ?_, ?_, ?_, ?_, ?_, ?_, ?_, ?_, ?_, ?_, ?_, ?_, ?_, ?_,
    ?_, ?_, ?_, ?_, ?_⟩
  · intro h
    apply update_station_eq_false
    rw [List.any_eq_false]
    intro kv hm
    simpa using h kv hm
  · rintro ⟨kv, hm, hk⟩
    rw [update_station_eq_true _ _ _
      (List.any_eq_true.mpr ⟨kv, hm, by simpa using hk⟩)]
  · exact hInv (fun r => r.id) apply_id_invariant (fun r t => rfl)
  · exact hInv (fun r => r.created_at) apply_created_invariant
      (fun r t => rfl)
  · exact hInv (fun r => r.adapter_config) apply_adapter_config_invariant
      (fun r t => rfl)
  · exact hFrame (fun r => r.name) "name" apply_name_frame (fun r t => rfl)
  · exact hFrame (fun r => r.description) "description"
      apply_description_frame (fun r t => rfl)
  · exact hFrame (fun r => r.api_url) "api_url" apply_api_url_frame
      (fun r t => rfl)
  · exact hFrame (fun r => r.adapter) "adapter" apply_adapter_frame
      (fun r t => rfl)
  · exact hFrame (fun r => r.auth_method) "auth_method"
      apply_auth_method_frame (fun r t => rfl)
  · exact hFrame (fun r => r.system_token) "system_token"
      apply_system_token_frame (fun r t => rfl)
  · exact hFrame (fun r => r.user_id) "user_id" apply_user_id_frame
      (fun r t => rfl)
  · exact hFrame (fun r => r.enabled) "enabled" apply_enabled_frame
      (fun r t => rfl)
  · exact hSet (fun r => r.name) "name" (fun v => v.asStr.getD "")
      apply_name_frame (fun r v => rfl) (fun r t => rfl) (by decide)
  · exact hSet (fun r => r.description) "description" (fun v => v.asStr)
      apply_description_frame (fun r v => rfl) (fun r t => rfl) (by decide)
  · exact hSet (fun r => r.api_url) "api_url" (fun v => v.asStr.getD "")
      apply_api_url_frame (fun r v => rfl) (fun r t => rfl) (by decide)
  · exact hSet (fun r => r.adapter) "adapter"
      (fun v => v.asStr.getD "newapi") apply_adapter_frame
      (fun r v => rfl) (fun r t => rfl) (by decide)
  · exact hSet (fun r => r.auth_method) "auth_method"
      (fun v => v.asStr.getD "bearer_token") apply_auth_method_frame
      (fun r v => rfl) (fun r t => rfl) (by decide)
  · exact hSet (fun r => r.system_token) "system_token"
      (fun v => v.asStr.getD "") apply_system_token_frame
      (fun r v => rfl) (fun r t => rfl) (by decide)
  · exact hSet (fun r => r.user_id) "user_id" (fun v => v.asStr)
      apply_user_id_frame (fun r v => rfl) (fun r t => rfl) (by decide)
  · exact hSet (fun r => r.enabled) "enabled"
      (fun v => if v.asBool.getD false then 1 else 0) apply_enabled_frame
      (fun r v => rfl) (fun r t => rfl) (by decide)

/-- A sample stored station row. -/
def sampleRow : RelayStationRow :=
  { id := "sid", name := "Foo", description := some "d"
    api_url := "https://foo.example", adapter := "newapi"
    auth_method := "bearer_token", system_token := "S"
    user_id := some "1", adapter_config := none
    enabled := 1, created_at := 100, updated_at := 100 }

/-- Witness for C3 at a concrete input: updating only `name` rewrites
`name`, refreshes `updated_at`, and leaves `system_token` untouched. -/
theorem C3_update_station_partial_update_witness :
    (update_station sampleRow [("name", Json.str "Bar")] 200).updated_at =
      200 ∧
    (update_station sampleRow [("name", Json.str "Bar")] 200).name =
      (Json.str "Bar").asStr.getD "" ∧
    (update_station sampleRow [("name", Json.str "Bar")] 200).system_token =
      sampleRow.system_token := by
  have h := C3_update_station_partial_update sampleRow
    [("name", Json.str "Bar")] 200 (by decide)
  exact ⟨h.2.1 ⟨("name", Json.str "Bar"), List.mem_cons_self ..,
      by decide⟩,
    (h.2.2.2.2.2.2.2.2.2.2.2.2.2.1) (Json.str "Bar") rfl,
    h.2.2.2.2.2.2.2.2.2.2.1 rfl⟩

/-! ## Claim C10 -/

/-- C10: `update_station` performs no type validation — a recognized key
whose value has the wrong JSON type is written as a silent default
(`unwrap_or`): empty string for `name`/`api_url`/`system_token`,
"newapi" for `adapter`, "bearer_token" for `auth_method`, false (0) for
`enabled`, and NULL for `description`/`user_id`. The operation is total
(the Rust function still returns `Ok(())`). -/
theorem C10_update_station_silent_type_defaults (row : RelayStationRow)
    (updates : List (String × Json)) (now : Int)
    (hnd : (updates.map Prod.fst).Nodup) :
    (∀ v, objLookup updates "name" = some v → v.asStr = none →
      (update_station row updates now).name = "") ∧
    (∀ v, objLookup updates "api_url" = some v → v.asStr = none →
      (update_station row updates now).api_url = "") ∧
    (∀ v, objLookup updates "system_token" = some v → v.asStr = none →
      (update_station row updates now).system_token = "") ∧
    (∀ v, objLookup updates "adapter" = some v → v.asStr = none →
      (update_station row updates now).adapter = "newapi") ∧
    (∀ v, objLookup updates "auth_method" = some v → v.asStr = none →
      (update_station row updates now).auth_method = "bearer_token") ∧
    (∀ v, objLookup updates "enabled" = some v → v.asBool = none →
      (update_station row updates now).enabled = 0) ∧
    (∀ v, objLookup updates "description" = some v → v.asStr = none →
      (update_station row updates now).description = none) ∧
    (∀ v, objLookup updates "user_id" = some v → v.asStr = none →
      (update_station row updates now).user_id = none) := by
  have hSet : ∀ {α : Type} (P : RelayStationRow → α) (key : String)
      (conv : Json → α)
      (hP : ∀ r kv, kv.1 ≠ key → P (applyStationField r kv) = P r)
      (hset : ∀ r v, P (applyStationField r (key, v)) = conv v)
      (hU : ∀ r : RelayStationRow, ∀ t : Int,
        P { r with updated_at := t } = P r)
      (hkey : key ∈ recognizedUpdateKeys),
      ∀ v, objLookup updates key = some v →
      P (update_station row updates now) = conv v := by
    intro α P key conv hP hset hU hkey v hl
    rw [update_station_eq_true _ _ _
      (any_recognized_of_lookup updates key v hkey hl), hU]
    exact fold_field_set P key conv hP hset updates row v hnd hl
  refine ⟨?_, ?_, ?_, ?_, ?_, ?_, ?_, ?_⟩
  · intro v hl hv
    rw [hSet (fun r => r.name) "name" (fun v => v.asStr.getD "")
      apply_name_frame (fun r v => rfl) (fun r t => rfl) (by decide) v hl,
      hv]
    rfl
  · intro v hl hv
    rw [hSet (fun r => r.api_url) "api_url" (fun v => v.asStr.getD "")
      apply_api_url_frame (fun r v => rfl) (fun r t => rfl) (by decide)
      v hl, hv]
    rfl
  · intro v hl hv
    rw [hSet (fun r => r.system_token) "system_token"
      (fun v => v.asStr.getD "") apply_system_token_frame
      (fun r v => rfl) (fun r t => rfl) (by decide) v hl, hv]
    rfl
  · intro v hl hv
    rw [hSet (fun r => r.adapter) "adapter" (fun v => v.asStr.getD "newapi")
      apply_adapter_frame (fun r v => rfl) (fun r t => rfl) (by decide)
      v hl, hv]
    rfl
  · intro v hl hv
    rw [hSet (fun r => r.auth_method) "auth_method"
      (fun v => v.asStr.getD "bearer_token") apply_auth_method_frame
      (fun r v => rfl) (fun r t => rfl) (by decide) v hl, hv]
    rfl
  · intro v hl hv
    rw [hSet (fun r => r.enabled) "enabled"
      (fun v => if v.asBool.getD false then 1 else 0) apply_enabled_frame
      (fun r v => rfl) (fun r t => rfl) (by decide) v hl, hv]
    rfl
  · intro v hl hv
    rw [hSet (fun r => r.description) "description" (fun v => v.asStr)
      apply_description_frame (fun r v => rfl) (fun r t => rfl) (by decide)
      v hl, hv]
  · intro v hl hv
    rw [hSet (fun r => r.user_id) "user_id" (fun v => v.asStr)
      apply_user_id_frame (fun r v => rfl) (fun r t => rfl) (by decide)
      v hl, hv]

/-- Witness for C10 at a concrete input: a numeric `name` and a numeric
`enabled` are silently written as "" and 0. -/
theorem C10_update_station_silent_type_defaults_witness :
    (update_station sampleRow
      [("name", Json.num 7), ("enabled", Json.num 1)] 200).name = "" ∧
    (update_station sampleRow
      [("name", Json.num 7), ("enabled", Json.num 1)] 200).enabled = 0 := by
  have h := C10_update_station_silent_type_defaults sampleRow
    [("name", Json.num 7), ("enabled", Json.num 1)] 200 (by decide)
  exact ⟨h.1 (Json.num 7) rfl rfl, h.2.2.2.2.2.1 (Json.num 1) rfl rfl⟩

/-! ## relay_stations.rs: import -/

/-- `RelayStationExportItem` (relay_stations.rs:243): a station payload
without id and timestamps. The serialized `adapter_config` is modelled
by its parsed object value. -/
structure RelayStationExportItem where
  name : String
  description : Option String
  api_url : String
  adapter : RelayStationAdapter
  auth_method : AuthMethod
  system_token : String
  user_id : Option String
  adapter_config : Option (List (String × Json))
  enabled : Bool
deriving Repr

/-- The row inserted for an unmatched import record
(relay_stations.rs:929-955): both timestamps set to now. -/
def rowOfExportItem (id : String) (it : RelayStationExportItem)
    (now : Int) : RelayStationRow :=
  { id := id, name := it.name, description := it.description
    api_url := it.api_url, adapter := adapterToDb it.adapter
    auth_method := authMethodToDb it.auth_method
    system_token := it.system_token, user_id := it.user_id
    adapter_config := it.adapter_config
    enabled := if it.enabled then 1 else 0
    created_at := now, updated_at := now }

/-- The in-place UPDATE for a matched import record with overwrite
(relay_stations.rs:902-926): id, name and created_at are not in the SET
list. -/
def overwriteRowFromItem (row : RelayStationRow)
    (it : RelayStationExportItem) (now : Int) : RelayStationRow :=
  { row with
    description := it.description,
    api_url := it.api_url,
    adapter := adapterToDb it.adapter,
    auth_method := authMethodToDb it.auth_method,
    system_token := it.system_token,
    user_id := it.user_id,
    adapter_config := it.adapter_config,
    enabled := if it.enabled then 1 else 0,
    updated_at := now }

/-- `SELECT id FROM relay_stations WHERE name = ?` taking the first row
in insertion (rowid) order. -/
def findStationByName (store : List RelayStationRow) (name : String) :
    Option RelayStationRow :=
  store.find? (fun s => s.name = name)

/-- `RelayStationManager::import_stations` (relay_stations.rs:867) on
the store's row list (insertion order): each incoming record is matched
by name against the store state at its turn; `fresh` supplies the
`Uuid::new_v4` results, consumed only on insert. Returns the new store
and the pushed names. -/
def import_stations (store : List RelayStationRow)
    (items : List RelayStationExportItem) (overwrite_existing : Bool)
    (now : Int) (fresh : Nat → String) (k : Nat) :
    List RelayStationRow × List String :=
  match items with
  | [] => (store, [])
  | it :: rest =>
    match (findStationByName store it.name).map (fun s => s.id) with
    | some existing_id =>
      if overwrite_existing then
        let store' := store.map (fun s =>
          if s.id = existing_id then overwriteRowFromItem s it now else s)
        let res := import_stations store' rest overwrite_existing now
          fresh k
        (res.1, it.name :: res.2)
      else
        import_stations store rest overwrite_existing now fresh k
    | none =>
      let res := import_stations
        (store ++ [rowOfExportItem (fresh k) it now]) rest
        overwrite_existing now fresh (k + 1)
      (res.1, it.name :: res.2)

/-! ## import lemmas -/

theorem import_stations_store_extends (items : List RelayStationExportItem)
    (store : List RelayStationRow) (now : Int) (fresh : Nat → String)
    (k : Nat) :
    ∃ tail, (import_stations store items false now fresh k).1 =
      store ++ tail := by
  induction items generalizing store k with
  | nil => exact ⟨[], by simp [import_stations]⟩
  | cons it rest ih =>
    cases hfind : findStationByName store it.name with
    | some ex =>
      simp only [import_stations, hfind, Option.map_some, if_neg
        Bool.false_ne_true]
      exact ih store k
    | none =>
      simp only [import_stations, hfind, Option.map_none]
      rcases ih (store ++ [rowOfExportItem (fresh k) it now]) (k + 1) with
        ⟨tail, htail⟩
      exact ⟨rowOfExportItem (fresh k) it now :: tail, by
        simp [htail]⟩

theorem import_stations_preserves_identity
    (items : List RelayStationExportItem) (store : List RelayStationRow)
    (ov : Bool) (now : Int) (fresh : Nat → String) (k : Nat)
    (s : RelayStationRow) (hs : s ∈ store) :
    ∃ s' ∈ (import_stations store items ov now fresh k).1,
      s'.id = s.id ∧ s'.name = s.name ∧ s'.created_at = s.created_at := by
  induction items generalizing store k s with
  | nil => exact ⟨s, by simpa [import_stations] using hs, rfl, rfl, rfl⟩
  | cons it rest ih =>
    cases hfind : findStationByName store it.name with
    | some ex =>
      cases ov with
      | false =>
        simp only [import_stations, hfind, Option.map_some, if_neg
          Bool.false_ne_true]
        exact ih store k s hs
      | true =>
        simp only [import_stations, hfind, Option.map_some, if_pos rfl]
        have hmem : (if s.id = ex.id then overwriteRowFromItem s it now
            else s) ∈ store.map (fun r =>
              if r.id = ex.id then overwriteRowFromItem r it now else r) :=
          List.mem_map.mpr ⟨s, hs, rfl⟩
        rcases ih _ k _ hmem with ⟨s', hs', h1, h2, h3⟩
        refine ⟨s', hs', ?_, ?_, ?_⟩ <;>
          by_cases hid : s.id = ex.id <;>
            simp [hid, overwriteRowFromItem] at h1 h2 h3 ⊢ <;>
            simp [h1, h2, h3]
    | none =>
      simp only [import_stations, hfind, Option.map_none]
      exact ih _ (k + 1) s (List.mem_append_left _ hs)

theorem import_stations_names_sublist
    (items : List RelayStationExportItem) (store : List RelayStationRow)
    (ov : Bool) (now : Int) (fresh : Nat → String) (k : Nat) :
    ((import_stations store items ov now fresh k).2).Sublist
      (items.map (fun it => it.name)) := by
  induction items generalizing store k with
  | nil => simp [import_stations]
  | cons it rest ih =>
    cases hfind : findStationByName store it.name with
    | some ex =>
      cases ov with
      | false =>
        simp only [import_stations, hfind, Option.map_some, if_neg
          Bool.false_ne_true]
        exact (ih store k).cons _
      | true =>
        simp only [import_stations, hfind, Option.map_some, if_pos rfl,
          List.map_cons]
        exact (ih _ k).cons₂ _
    | none =>
      simp only [import_stations, hfind, Option.map_none, List.map_cons]
      exact (ih _ (k + 1)).cons₂ _

/-! ## Claim C6 -/

/-- An export record named "Foo". -/
def fooItem : RelayStationExportItem :=
  { name := "Foo", description := none, api_url := "https://foo.example"
    adapter := .newapi, auth_method := .bearer_token
    system_token := "T", user_id := none, adapter_config := none
    enabled := true }

/-- A deterministic stand-in for the `Uuid::new_v4` sequence. -/
def uuidSeq : Nat → String := fun n => "uuid-" ++ toString n

/-- Counterexample to C6 as stated: importing two records named "Foo"
into an empty store with overwrite off, the second record is matched at
its turn (the store then already holds "Foo", first conjunct) and is
skipped, yet its name *is* in the returned list (pushed by the first
record), contradicting "a matched record['s] ... name is not in the
returned list". -/
theorem C6_counterexample :
    (findStationByName
      (import_stations [] [fooItem] false 10 uuidSeq 0).1 "Foo").isSome =
      true ∧
    (import_stations [] [fooItem, fooItem] false 10 uuidSeq 0).2 =
      ["Foo"] := ⟨rfl, rfl⟩

/-- C6 (amended): each incoming record is matched by name against the
store state at its turn (earlier imports included); with overwrite off
a matched record's step is the identity — the store is untouched and it
contributes nothing to the returned list (though the same name may
already have been pushed by an earlier record) — and the prior store is
extended, never rewritten; with overwrite on a matched record is
updated in place preserving id, name and created_at; an unmatched
record is inserted with the next generated id; the returned list holds,
in order, exactly the names of the records that were inserted or
updated. -/
theorem C6_import_stations_amended (now : Int) (fresh : Nat → String) :
    (∀ (store : List RelayStationRow) (it : RelayStationExportItem)
      (rest : List RelayStationExportItem) (k : Nat),
      (findStationByName store it.name).isSome = true →
      import_stations store (it :: rest) false now fresh k =
        import_stations store rest false now fresh k) ∧
    (∀ (store : List RelayStationRow)
      (items : List RelayStationExportItem) (k : Nat), ∃ tail,
      (import_stations store items false now fresh k).1 = store ++ tail) ∧
    (∀ (store : List RelayStationRow)
      (items : List RelayStationExportItem) (ov : Bool) (k : Nat)
      (s : RelayStationRow), s ∈ store →
      ∃ s' ∈ (import_stations store items ov now fresh k).1,
        s'.id = s.id ∧ s'.name = s.name ∧
        s'.created_at = s.created_at) ∧
    (∀ (store : List RelayStationRow) (it : RelayStationExportItem)
      (k : Nat) (ex : RelayStationRow),
      findStationByName store it.name = some ex →
      import_stations store [it] true now fresh k =
        (store.map (fun s =>
          if s.id = ex.id then overwriteRowFromItem s it now else s),
         [it.name])) ∧
    (∀ (store : List RelayStationRow) (it : RelayStationExportItem)
      (ov : Bool) (k : Nat),
      findStationByName store it.name = none →
      import_stations store [it] ov now fresh k =
        (store ++ [rowOfExportItem (fresh k) it now], [it.name])) ∧
    (∀ (store : List RelayStationRow)
      (items : List RelayStationExportItem) (ov : Bool) (k : Nat),
      ((import_stations store items ov now fresh k).2).Sublist
        (items.map (fun it => it.name))) := by
  refine ⟨?_, ?_, ?_, ?_, ?_, ?_⟩
  · intro store it rest k hsome
    rcases Option.isSome_iff_exists.mp hsome with ⟨ex, hex⟩
    simp [import_stations, hex]
  · intro store items k
    exact import_stations_store_extends items store now fresh k
  · intro store items ov k s hs
    exact import_stations_preserves_identity items store ov now fresh k
      s hs
  · intro store it k ex hex
    simp [import_stations, hex]
  · intro store it ov k hnone
    cases ov <;> simp [import_stations, hnone]
  · intro store items ov k
    exact import_stations_names_sublist items store ov now fresh k

/-- Witness for the amended C6 at a concrete input: importing "Foo"
with overwrite off into a store already holding a station named "Foo"
changes nothing — in particular the stored `system_token` "S" is kept. -/
theorem C6_import_stations_amended_witness :
    import_stations [sampleRow] [fooItem] false 10 uuidSeq 0 =
      ([sampleRow], []) := by
  rw [(C6_import_stations_amended 10 uuidSeq).1 [sampleRow] fooItem [] 0
    rfl]
  rfl

/-! ## relay_stations.rs: adapter result types -/

/-- `StationInfo` (relay_stations.rs:71). -/
structure StationInfo where
  name : String
  announcement : Option String
  api_url : String
  version : Option String
  metadata : Option (List (String × Json))
  quota_per_unit : Option Int
deriving Repr

/-- `RelayStationToken` (relay_stations.rs:82). -/
structure RelayStationToken where
  id : String
  station_id : String
  name : String
  token : String
  user_id : Option String
  enabled : Bool
  expires_at : Option Int
  group : Option String
  remain_quota : Option Int
  unlimited_quota : Option Bool
  metadata : Option (List (String × Json))
  created_at : Int
deriving Repr

/-- `UserInfo` (relay_stations.rs:99); the two f64 money fields are
modelled as rationals (never constructed by the minimal adapter). -/
structure UserInfo where
  user_id : String
  username : Option String
  email : Option String
  balance_remaining : Option ℚ
  amount_used : Option ℚ
  request_count : Option Int
  status : Option String
  metadata : Option (List (String × Json))
deriving Repr

/-- `StationLogEntry` (relay_stations.rs:112). -/
structure StationLogEntry where
  id : String
  timestamp : Int
  level : String
  message : String
  user_id : Option String
  request_id : Option String
  metadata : Option (List (String × Json))
  model_name : Option String
  prompt_tokens : Option Int
  completion_tokens : Option Int
  quota : Option Int
  token_name : Option String
  use_time : Option Int
  is_stream : Option Bool
  channel : Option Int
  group : Option String
deriving Repr

/-- `LogPaginationResponse` (relay_stations.rs:134). -/
structure LogPaginationResponse where
  items : List StationLogEntry
  page : Nat
  page_size : Nat
  total : Int
deriving Repr

/-- `TokenPaginationResponse` (relay_stations.rs:143). -/
structure TokenPaginationResponse where
  items : List RelayStationToken
  page : Nat
  page_size : Nat
  total : Int
deriving Repr

/-- `ConnectionTestResult` (relay_stations.rs:152). -/
structure ConnectionTestResult where
  success : Bool
  response_time : Option Nat
  message : String
  status_code : Option Nat
  details : Option (List (String × Json))
deriving Repr

/-- `CreateTokenRequest` (relay_stations.rs:162). -/
structure CreateTokenRequest where
  name : String
  remain_quota : Option Int
  expired_time : Option Int
  unlimited_quota : Option Bool
  model_limits_enabled : Option Bool
  model_limits : Option String
  group : Option String
  allow_ips : Option String
deriving Repr

/-- `UpdateTokenRequest` (relay_stations.rs:175). -/
structure UpdateTokenRequest where
  id : Int
  name : Option String
  remain_quota : Option Int
  expired_time : Option Int
  unlimited_quota : Option Bool
  model_limits_enabled : Option Bool
  model_limits : Option String
  group : Option String
  allow_ips : Option String
  enabled : Option Bool
deriving Repr

/-! ## relay_adapters/custom.rs: the MinimalAdapter

`CustomAdapter` performs no network I/O at all, so each operation is a
pure function of the station record and its arguments; `Except String`
models `anyhow::Result`. -/

namespace CustomAdapter

/-- `CustomAdapter::get_station_info` (custom.rs:16): a static
descriptor assembled from the station record, no API call. -/
def get_station_info (station : RelayStationRow) :
    Except String StationInfo :=
  .ok { name := station.name
        announcement := none
        api_url := station.api_url
        version := some "Custom"
        metadata := some
          [("adapter_type", .str "custom"),
           ("note", .str "This is a custom configuration that only provides URL and API key.")]
        quota_per_unit := none }

/-- `CustomAdapter::get_user_info` (custom.rs:33). -/
def get_user_info (_station : RelayStationRow) (_user_id : String) :
    Except String UserInfo :=
  .error "User info not available for custom configurations"

/-- `CustomAdapter::get_logs` (custom.rs:37). -/
def get_logs (_station : RelayStationRow) (_page _page_size : Option Nat)
    (_filters : Option Json) : Except String LogPaginationResponse :=
  .error "Logs not available for custom configurations"

/-- `CustomAdapter::test_connection` (custom.rs:41): no connection is
attempted; the result is a structured success. -/
def test_connection (_station : RelayStationRow) :
    Except String ConnectionTestResult :=
  .ok { success := true
        response_time := none
        message := "Custom configuration - connection testing not applicable"
        status_code := none
        details := none }

/-- `CustomAdapter::list_tokens` (custom.rs:52). -/
def list_tokens (_station : RelayStationRow) (_page _size : Option Nat) :
    Except String TokenPaginationResponse :=
  .error "Token management not available for custom configurations"

/-- `CustomAdapter::create_token` (custom.rs:56). -/
def create_token (_station : RelayStationRow)
    (_token_data : CreateTokenRequest) : Except String RelayStationToken :=
  .error "Token management not available for custom configurations"

/-- `CustomAdapter::update_token` (custom.rs:60). -/
def update_token (_station : RelayStationRow) (_token_id : String)
    (_token_data : UpdateTokenRequest) : Except String RelayStationToken :=
  .error "Token management not available for custom configurations"

/-- `CustomAdapter::delete_token` (custom.rs:64). -/
def delete_token (_station : RelayStationRow) (_token_id : String) :
    Except String Unit :=
  .error "Token management not available for custom configurations"

/-- `CustomAdapter::toggle_token` (custom.rs:68). -/
def toggle_token (_station : RelayStationRow) (_token_id : String)
    (_enabled : Bool) : Except String RelayStationToken :=
  .error "Token management not available for custom configurations"

/-- `CustomAdapter::get_user_groups` (custom.rs:72). -/
def get_user_groups (_station : RelayStationRow) : Except String Json :=
  .error "User groups not available for custom configurations"

end CustomAdapter

/-! ## relay_adapters: token response mapping

The HTTP transport is external; what the adapters own is the
translation of a provider response JSON into `RelayStationToken`.
There are four such sites, one per listing/mutation result. -/

/-- One token of NewApi `list_tokens` (newapi.rs:316-365). -/
def newapiTokenOfJson (stationId : String) (token : Json) :
    RelayStationToken :=
  let token_obj := token.asObj.getD []
  { id := (((objLookup token_obj "id").bind Json.asI64).map
      (fun i => toString i)).getD ""
    station_id := stationId
    name := ((objLookup token_obj "name").bind Json.asStr).getD ""
    token := ((objLookup token_obj "key").bind Json.asStr).getD ""
    user_id := ((objLookup token_obj "user_id").bind Json.asI64).map
      (fun i => toString i)
    enabled := (((objLookup token_obj "status").bind Json.asI64).map
      (fun s => s == 1)).getD false
    expires_at := Option.filter (fun t => t != -1)
      ((objLookup token_obj "expired_time").bind Json.asI64)
    group := (objLookup token_obj "group").bind Json.asStr
    remain_quota := (objLookup token_obj "remain_quota").bind Json.asI64
    unlimited_quota :=
      (objLookup token_obj "unlimited_quota").bind Json.asBool
    metadata := some
      [("raw", token),
       ("used_quota", (objLookup token_obj "used_quota").getD Json.null),
       ("remain_quota",
        (objLookup token_obj "remain_quota").getD Json.null),
       ("group", (objLookup token_obj "group").getD Json.null)]
    created_at :=
      ((objLookup token_obj "created_time").bind Json.asI64).getD 0 }

/-- One token of YourApi `list_tokens` (yourapi.rs:98-148); identical
to the NewApi mapping except for an extra `accessed_time` metadata
entry. -/
def yourapiTokenOfJson (stationId : String) (token : Json) :
    RelayStationToken :=
  let token_obj := token.asObj.getD []
  { id := (((objLookup token_obj "id").bind Json.asI64).map
      (fun i => toString i)).getD ""
    station_id := stationId
    name := ((objLookup token_obj "name").bind Json.asStr).getD ""
    token := ((objLookup token_obj "key").bind Json.asStr).getD ""
    user_id := ((objLookup token_obj "user_id").bind Json.asI64).map
      (fun i => toString i)
    enabled := (((objLookup token_obj "status").bind Json.asI64).map
      (fun s => s == 1)).getD false
    expires_at := Option.filter (fun t => t != -1)
      ((objLookup token_obj "expired_time").bind Json.asI64)
    group := (objLookup token_obj "group").bind Json.asStr
    remain_quota := (objLookup token_obj "remain_quota").bind Json.asI64
    unlimited_quota :=
      (objLookup token_obj "unlimited_quota").bind Json.asBool
    metadata := some
      [("raw", token),
       ("used_quota", (objLookup token_obj "used_quota").getD Json.null),
       ("remain_quota",
        (objLookup token_obj "remain_quota").getD Json.null),
       ("group", (objLookup token_obj "group").getD Json.null),
       ("accessed_time",
        (objLookup token_obj "accessed_time").getD Json.null)]
    created_at :=
      ((objLookup token_obj "created_time").bind Json.asI64).getD 0 }

/-- The token of a NewApi `update_token` success response
(newapi.rs:486-529): `none` models the "Invalid response format" error
when `data["data"]` is not an object. -/
def newapiUpdateTokenOfJson (stationId token_id : String)
    (dataField : Json) : Option RelayStationToken :=
  match dataField.asObj with
  | none => none
  | some token_obj => some
    { id := (((objLookup token_obj "id").bind Json.asI64).map
        (fun i => toString i)).getD token_id
      station_id := stationId
      name := ((objLookup token_obj "name").bind Json.asStr).getD ""
      token := ((objLookup token_obj "key").bind Json.asStr).getD ""
      user_id := ((objLookup token_obj "user_id").bind Json.asI64).map
        (fun i => toString i)
      enabled := (((objLookup token_obj "status").bind Json.asI64).map
        (fun s => s == 1)).getD false
      expires_at := Option.filter (fun t => t != -1)
        ((objLookup token_obj "expired_time").bind Json.asI64)
      group := (objLookup token_obj "group").bind Json.asStr
      remain_quota := (objLookup token_obj "remain_quota").bind Json.asI64
      unlimited_quota :=
        (objLookup token_obj "unlimited_quota").bind Json.asBool
      metadata := some [("raw", dataField)]
      created_at :=
        ((objLookup token_obj "created_time").bind Json.asI64).getD 0 }

/-- The token of a NewApi `toggle_token` success response
(newapi.rs:574-614): the `enabled` fallback is the requested flag. -/
def newapiToggleTokenOfJson (stationId token_id : String) (enabled : Bool)
    (dataField : Json) : Option RelayStationToken :=
  match dataField.asObj with
  | none => none
  | some token_obj => some
    { id := (((objLookup token_obj "id").bind Json.asI64).map
        (fun i => toString i)).getD token_id
      station_id := stationId
      name := ((objLookup token_obj "name").bind Json.asStr).getD ""
      token := ((objLookup token_obj "key").bind Json.asStr).getD ""
      user_id := ((objLookup token_obj "user_id").bind Json.asI64).map
        (fun i => toString i)
      enabled := (((objLookup token_obj "status").bind Json.asI64).map
        (fun s => s == 1)).getD enabled
      expires_at := Option.filter (fun t => t != -1)
        ((objLookup token_obj "expired_time").bind Json.asI64)
      group := (objLookup token_obj "group").bind Json.asStr
      remain_quota := (objLookup token_obj "remain_quota").bind Json.asI64
      unlimited_quota :=
        (objLookup token_obj "unlimited_quota").bind Json.asBool
      metadata := some [("raw", dataField)]
      created_at :=
        ((objLookup token_obj "created_time").bind Json.asI64).getD 0 }

/-! ## relay_adapters/yourapi.rs: AltPagination list_tokens

The backend is modelled as the full provider-side token array served
in 0-based pages of the requested fetch size
(`GET /api/token/?p={page-1}&size={size+1}`, yourapi.rs:75). `usize`
subtraction is partial: `usizeSub` is `none` exactly when Rust's
`page - 1` underflows (panic in debug builds, wrap-around in release
builds), and `yourapi_list_tokens` propagates that as `none`. -/

/-- Rust `usize` subtraction, defined only when it does not
underflow. -/
def usizeSub (a b : Nat) : Option Nat :=
  if b ≤ a then some (a - b) else none

/-- The request parameters computed at yourapi.rs:69-75: the 0-based
backend page and the over-fetch size `size + 1`. -/
def yourapiRequestParams (pageArg sizeArg : Option Nat) :
    Option (Nat × Nat) :=
  let page := pageArg.getD 1
  let size := sizeArg.getD 10
  (usizeSub page 1).map (fun p0 => (p0, size + 1))

/-- A 0-based paged view of the backend's full token array. -/
def backendSlice (items : List Json) (p fetch : Nat) : List Json :=
  (items.drop (p * fetch)).take fetch

/-- `YourApiAdapter::list_tokens` (yourapi.rs:66-173) over the backend
model: truncate the over-fetched page to `size` when a size+1-th item
came back, and synthesize the estimated total. -/
def yourapi_list_tokens (backendItems : List Json) (stationId : String)
    (pageArg sizeArg : Option Nat) : Option TokenPaginationResponse :=
  let page := pageArg.getD 1
  let size := sizeArg.getD 10
  match usizeSub page 1 with
  | none => none
  | some p0 =>
    let fetch_size := size + 1
    let tokens := backendSlice backendItems p0 fetch_size
    let has_more_pages := tokens.length > size
    let tokens_to_show := if has_more_pages then tokens.take size
      else tokens
    let items := tokens_to_show.map (yourapiTokenOfJson stationId)
    let items_len := items.length
    let estimated_total : Int :=
      if page = 1 ∧ ¬ has_more_pages then (items_len : Int)
      else if has_more_pages then ((page * size + 1 : Nat) : Int)
      else (((page - 1) * size + items_len : Nat) : Int)
    some { items := items, page := page, page_size := size
           total := estimated_total }

/-! ## Claim C8 -/

theorem filter_expired_neg1 :
    Option.filter (fun x => x != (-1 : Int)) (some (-1 : Int)) = none := by
  simp [Option.filter]

theorem filter_expired_ne (t : Int) (h : t ≠ -1) :
    Option.filter (fun x => x != (-1 : Int)) (some t) = some t := by
  simp [Option.filter, h]

/-- C8: at all four response-mapping sites (NewApi and YourApi token
listing, and the update/toggle mutation results), a provider token with
`expired_time = -1` surfaces with `expires_at = none`, and any other
numeric `expired_time` surfaces unchanged. -/
theorem C8_token_expiry_sentinel (stationId token_id : String)
    (enabled : Bool) (tfs : List (String × Json)) :
    (objLookup tfs "expired_time" = some (.num (-1)) →
      (newapiTokenOfJson stationId (.obj tfs)).expires_at = none ∧
      (yourapiTokenOfJson stationId (.obj tfs)).expires_at = none ∧
      (∀ tok, newapiUpdateTokenOfJson stationId token_id (.obj tfs) =
        some tok → tok.expires_at = none) ∧
      (∀ tok, newapiToggleTokenOfJson stationId token_id enabled
        (.obj tfs) = some tok → tok.expires_at = none)) ∧
    (∀ t : Int, t ≠ -1 →
      objLookup tfs "expired_time" = some (.num t) →
      (newapiTokenOfJson stationId (.obj tfs)).expires_at = some t ∧
      (yourapiTokenOfJson stationId (.obj tfs)).expires_at = some t ∧
      (∀ tok, newapiUpdateTokenOfJson stationId token_id (.obj tfs) =
        some tok → tok.expires_at = some t) ∧
      (∀ tok, newapiToggleTokenOfJson stationId token_id enabled
        (.obj tfs) = some tok → tok.expires_at = some t)) := by
  have e1 : (newapiTokenOfJson stationId (.obj tfs)).expires_at =
      Option.filter (fun x => x != (-1 : Int))
        ((objLookup tfs "expired_time").bind Json.asI64) := rfl
  have e2 : (yourapiTokenOfJson stationId (.obj tfs)).expires_at =
      Option.filter (fun x => x != (-1 : Int))
        ((objLookup tfs "expired_time").bind Json.asI64) := rfl
  have e3 : ∀ tok, newapiUpdateTokenOfJson stationId token_id
      (.obj tfs) = some tok → tok.expires_at =
      Option.filter (fun x => x != (-1 : Int))
        ((objLookup tfs "expired_time").bind Json.asI64) := by
    intro tok htok
    simp only [newapiUpdateTokenOfJson, Json.asObj] at htok
    injection htok with htok
    rw [← htok]
  have e4 : ∀ tok, newapiToggleTokenOfJson stationId token_id enabled
      (.obj tfs) = some tok → tok.expires_at =
      Option.filter (fun x => x != (-1 : Int))
        ((objLookup tfs "expired_time").bind Json.asI64) := by
    intro tok htok
    simp only [newapiToggleTokenOfJson, Json.asObj] at htok
    injection htok with htok
    rw [← htok]
  constructor
  · intro h
    rw [h] at e1 e2 e3 e4
    simp only [Option.some_bind, Json.asI64] at e1 e2 e3 e4
    refine ⟨?_, ?_, ?_, ?_⟩
    · rw [e1]
      exact filter_expired_neg1
    · rw [e2]
      exact filter_expired_neg1
    · intro tok htok
      rw [e3 tok htok]
      exact filter_expired_neg1
    · intro tok htok
      rw [e4 tok htok]
      exact filter_expired_neg1
  · intro t ht h
    rw [h] at e1 e2 e3 e4
    simp only [Option.some_bind, Json.asI64] at e1 e2 e3 e4
    refine ⟨?_, ?_, ?_, ?_⟩
    · rw [e1]
      exact filter_expired_ne t ht
    · rw [e2]
      exact filter_expired_ne t ht
    · intro tok htok
      rw [e3 tok htok]
      exact filter_expired_ne t ht
    · intro tok htok
      rw [e4 tok htok]
      exact filter_expired_ne t ht

/-- Witness for C8 at a concrete input: `expired_time = -1` surfaces as
absent, and `expired_time = 99` unchanged. -/
theorem C8_token_expiry_sentinel_witness :
    (newapiTokenOfJson "sid" (.obj [("expired_time", .num (-1))])).expires_at
      = none ∧
    (yourapiTokenOfJson "sid" (.obj [("expired_time", .num 99)])).expires_at
      = some 99 :=
  ⟨(C8_token_expiry_sentinel "sid" "1" true
      [("expired_time", .num (-1))]).1 rfl |>.1,
   ((C8_token_expiry_sentinel "sid" "1" true
      [("expired_time", .num 99)]).2 99 (by decide) rfl).2.1⟩

/-! ## Claim C5 -/

/-- C5: for every 1-based page request, `YourApiAdapter::list_tokens`
asks the backend for 0-based page `page - 1` with fetch size
`size + 1`; when the backend returns more than `size` items the result
is truncated to `size` items and the estimated total is
`page * size + 1` — under the paged-array backend model a lower bound
on the true item count; when the backend returns at most `size` items
on page 1, the reported total equals the number of items returned. In
particular page 1 / size 10 against a backend of exactly 10 items
yields total 10 with all 10 items (total = page·size, so no further
page is indicated). -/
theorem C5_yourapi_list_tokens_pagination (backendItems : List Json)
    (stationId : String) (page size : Nat) (hp : 1 ≤ page) :
    (yourapiRequestParams (some page) (some size) =
      some (page - 1, size + 1)) ∧
    (∃ r, yourapi_list_tokens backendItems stationId (some page)
        (some size) = some r ∧
      r.page = page ∧ r.page_size = size ∧
      ((backendSlice backendItems (page - 1) (size + 1)).length > size →
        r.items = ((backendSlice backendItems (page - 1)
            (size + 1)).take size).map (yourapiTokenOfJson stationId) ∧
        r.items.length = size ∧
        r.total = ((page * size + 1 : Nat) : Int) ∧
        page * size + 1 ≤ backendItems.length) ∧
      (page = 1 →
        (backendSlice backendItems (page - 1) (size + 1)).length ≤ size →
        r.items = (backendSlice backendItems (page - 1)
            (size + 1)).map (yourapiTokenOfJson stationId) ∧
        r.total = (((backendSlice backendItems (page - 1)
            (size + 1)).length : Nat) : Int))) ∧
    (∀ items10 : List Json, items10.length = 10 →
      ∃ r, yourapi_list_tokens items10 stationId (some 1) (some 10) =
        some r ∧ r.total = 10 ∧ r.items.length = 10) := by
  have hsub : usizeSub page 1 = some (page - 1) := by
    simp [usizeSub, hp]
  refine ⟨?_, ?_, ?_⟩
  · simp [yourapiRequestParams, usizeSub, hp]
  · simp only [yourapi_list_tokens, Option.getD_some, hsub]
    refine ⟨_, rfl, rfl, rfl, ?_, ?_⟩
    · intro hm
      refine ⟨?_, ?_, ?_, ?_⟩
      · simp [hm]
      · simp only [if_pos hm, List.length_map, List.length_take]
        omega
      · have hnot : ¬ (page = 1 ∧
            ¬ (backendSlice backendItems (page - 1) (size + 1)).length >
              size) := by
          intro hcon
          exact hcon.2 hm
        simp [hnot, hm]
      · have hlen : (backendSlice backendItems (page - 1)
            (size + 1)).length =
            min (size + 1)
              (backendItems.length - (page - 1) * (size + 1)) := by
          simp [backendSlice]
        have h1 : size < backendItems.length - (page - 1) * (size + 1) := by
          rw [hlen] at hm
          exact lt_of_lt_of_le hm (min_le_right _ _)
        have h2 : (page - 1) * (size + 1) + (size + 1) ≤
            backendItems.length := by
          omega
        have hpe : page = (page - 1) + 1 := by omega
        have h3 : page * size + 1 ≤ (page - 1) * (size + 1) + (size + 1) := by
          have hmul : page * (size + 1) =
              (page - 1) * (size + 1) + (size + 1) := by
            nth_rewrite 1 [hpe]
            rw [Nat.succ_mul]
          calc page * size + 1 ≤ page * size + page := by omega
            _ = page * (size + 1) := by ring
            _ = (page - 1) * (size + 1) + (size + 1) := hmul
        exact le_trans h3 h2
    · intro hpage hle
      subst hpage
      have hle' : (backendSlice backendItems 0 (size + 1)).length ≤
          size := by
        simpa using hle
      have hnm2 : ¬ size < (backendSlice backendItems 0 (size + 1)).length :=
        Nat.not_lt.mpr hle'
      refine ⟨?_, ?_⟩
      · simp [hnm2]
      · simp [hnm2]
  · intro items10 hl
    have hsub1 : usizeSub 1 1 = some 0 := rfl
    have hslice : (backendSlice items10 0 11).length = 10 := by
      simp [backendSlice, hl]
    simp only [yourapi_list_tokens, Option.getD_some, hsub1]
    have hnm : ¬ (backendSlice items10 0 11).length > 10 := by
      omega
    refine ⟨_, rfl, ?_, ?_⟩
    · simp [hnm, hslice]
    · simp [hnm, hslice]

/-- Witness for C5 at a concrete input: a backend of exactly ten items
served at page 1, size 10 reports total 10 and returns all ten. -/
theorem C5_yourapi_list_tokens_pagination_witness :
    ∃ r, yourapi_list_tokens (List.replicate 10 Json.null) "sid"
      (some 1) (some 10) = some r ∧ r.total = 10 ∧ r.items.length = 10 :=
  (C5_yourapi_list_tokens_pagination (List.replicate 10 Json.null) "sid"
    1 10 (by decide)).2.2 (List.replicate 10 Json.null) (by simp)

/-! ## Claim C9 -/

/-- C9: the page computation of `YourApiAdapter::list_tokens` is not
total — after defaulting an absent page to 1, it computes `page - 1` on
an unsigned integer, so a request for page 0 underflows (`usizeSub`
returns `none`, modelling the debug-build panic / release-build wrap:
no ordinary result exists) instead of being clamped or rejected, while
every page ≥ 1 (and the absent-page default) is safe. -/
theorem C9_yourapi_page_zero_underflow (backendItems : List Json)
    (stationId : String) :
    (∀ sizeArg, yourapiRequestParams (some 0) sizeArg = none) ∧
    (∀ sizeArg, yourapi_list_tokens backendItems stationId (some 0)
      sizeArg = none) ∧
    (∀ page sizeArg, 1 ≤ page →
      yourapiRequestParams (some page) sizeArg =
        some (page - 1, sizeArg.getD 10 + 1)) ∧
    (∀ sizeArg, yourapiRequestParams none sizeArg =
      some (0, sizeArg.getD 10 + 1)) := by
  refine ⟨?_, ?_, ?_, ?_⟩
  · intro sizeArg
    simp [yourapiRequestParams, usizeSub]
  · intro sizeArg
    simp [yourapi_list_tokens, usizeSub]
  · intro page sizeArg hp
    simp [yourapiRequestParams, usizeSub, hp]
  · intro sizeArg
    simp [yourapiRequestParams, usizeSub]

/-- Witness for C9 at concrete inputs: page 0 underflows, page 3 maps
to backend page 2 with fetch size 11. -/
theorem C9_yourapi_page_zero_underflow_witness :
    yourapi_list_tokens [] "sid" (some 0) (some 10) = none ∧
    yourapiRequestParams (some 3) (some 10) = some (2, 11) :=
  ⟨(C9_yourapi_page_zero_underflow [] "sid").2.1 (some 10),
   (C9_yourapi_page_zero_underflow [] "sid").2.2.1 3 (some 10)
     (by decide)⟩

/-! ## Claim C7 -/

/-- Counterexample to C7 as stated: `test_connection` is one of the
"every other operation"s, yet it does not fail with a "not available"
error — it returns a structured success (without any network call). -/
theorem C7_counterexample :
    CustomAdapter.test_connection sampleRow =
      .ok { success := true
            response_time := none
            message := "Custom configuration - connection testing not applicable"
            status_code := none
            details := none } := rfl

/-- C7 (amended): for every station, `get_station_info` returns a
static descriptor built only from the station record, `test_connection`
returns a structured success result (neither makes a network call — in
this embedding both are pure functions of the record), and every
remaining operation fails with a descriptive "not available for custom
configurations" error instead of attempting a network call. -/
theorem C7_custom_adapter_amended (station : RelayStationRow) :
    (CustomAdapter.get_station_info station =
      .ok { name := station.name
            announcement := none
            api_url := station.api_url
            version := some "Custom"
            metadata := some
              [("adapter_type", .str "custom"),
               ("note", .str "This is a custom configuration that only provides URL and API key.")]
            quota_per_unit := none }) ∧
    (CustomAdapter.test_connection station =
      .ok { success := true
            response_time := none
            message := "Custom configuration - connection testing not applicable"
            status_code := none
            details := none }) ∧
    (∀ user_id, CustomAdapter.get_user_info station user_id =
      .error "User info not available for custom configurations") ∧
    (∀ page page_size filters,
      CustomAdapter.get_logs station page page_size filters =
        .error "Logs not available for custom configurations") ∧
    (∀ page size, CustomAdapter.list_tokens station page size =
      .error "Token management not available for custom configurations") ∧
    (∀ req, CustomAdapter.create_token station req =
      .error "Token management not available for custom configurations") ∧
    (∀ token_id req, CustomAdapter.update_token station token_id req =
      .error "Token management not available for custom configurations") ∧
    (∀ token_id, CustomAdapter.delete_token station token_id =
      .error "Token management not available for custom configurations") ∧
    (∀ token_id enabled,
      CustomAdapter.toggle_token station token_id enabled =
        .error "Token management not available for custom configurations") ∧
    (CustomAdapter.get_user_groups station =
      .error "User groups not available for custom configurations") :=
  ⟨rfl, rfl, fun _ => rfl, fun _ _ _ => rfl, fun _ _ => rfl, fun _ => rfl,
   fun _ _ => rfl, fun _ => rfl, fun _ _ => rfl, rfl⟩

end Workbench
